import Mathlib

set_option maxRecDepth 100000

/-!
Verification of the sql-review-studio analysis core (backend/analyzer.go,
backend/engine_analyzer.go, backend/main.go) against its specification.

Strings are modelled at the rune level as `List Char`, matching Go's
`[]rune` iteration.  Each Go regular expression is embedded as an
executable Boolean matcher whose doc comment records the original
pattern; machine integers are modelled as `Nat` (every integer in the
analysis core is a non-negative count or index).
-/

abbrev Str := List Char

def str (s : String) : Str := s.toList

/-- Character class of Go's regexp `\s`, i.e. `[\t\n\f\r ]`. -/
def reSpace (c : Char) : Bool :=
  c == ' ' || c == '\t' || c == '\n' || c == '\x0c' || c == '\r'

/-- Go `unicode.IsSpace`: ASCII whitespace plus the Unicode space characters. -/
def goIsSpace (c : Char) : Bool :=
  c == ' ' || c == '\t' || c == '\n' || c == '\x0b' || c == '\x0c' || c == '\r' ||
  c == '\u0085' || c == '\u00A0' || c == '\u1680' ||
  (decide ('\u2000' ≤ c) && decide (c ≤ '\u200A')) ||
  c == '\u2028' || c == '\u2029' || c == '\u202F' || c == '\u205F' || c == '\u3000'

/-- Word characters of Go's regexp `\w` / `\b`: `[0-9A-Za-z_]`. -/
def isWordChar (c : Char) : Bool :=
  c == '_' || (decide ('0' ≤ c) && decide (c ≤ '9')) ||
  (decide ('A' ≤ c) && decide (c ≤ 'Z')) || (decide ('a' ≤ c) && decide (c ≤ 'z'))

/-- ASCII upper-casing of one character (`strings.ToUpper`, restricted to ASCII). -/
def asciiToUpper (c : Char) : Char :=
  if decide ('a' ≤ c) && decide (c ≤ 'z') then Char.ofNat (c.toNat - 32) else c

/-- ASCII lower-casing of one character (`strings.ToLower`, restricted to ASCII). -/
def asciiToLower (c : Char) : Char :=
  if decide ('A' ≤ c) && decide (c ≤ 'Z') then Char.ofNat (c.toNat + 32) else c

def goToUpper (s : Str) : Str := s.map asciiToUpper

def goToLower (s : Str) : Str := s.map asciiToLower

/-- Go `strings.TrimSpace`: drop Unicode whitespace from both ends. -/
def goTrimSpace (s : Str) : Str :=
  ((s.dropWhile goIsSpace).reverse.dropWhile goIsSpace).reverse

/-- Go `strings.Contains` (substring occurrence; rune-level view of a UTF-8 search). -/
def chContains : Str → Str → Bool
  | [], pat => pat.isEmpty
  | c :: rest, pat => pat.isPrefixOf (c :: rest) || chContains rest pat

/-- Go `strings.HasPrefix`. -/
def chStartsWith (s pat : Str) : Bool := pat.isPrefixOf s

/-- Go `strings.HasSuffix`. -/
def chEndsWith (s pat : Str) : Bool := pat.isSuffixOf s

/-- Go `strings.SplitAfter(s, "\n")`: pieces keep their trailing newline. -/
def splitAfterNL : Str → List Str
  | [] => [[]]
  | c :: rest =>
    if c == '\n' then ['\n'] :: splitAfterNL rest
    else
      match splitAfterNL rest with
      | h :: t => (c :: h) :: t
      | [] => [[c]]

/-- Go `strings.Split(s, "\n")`. -/
def splitNL : Str → List Str
  | [] => [[]]
  | c :: rest =>
    if c == '\n' then [] :: splitNL rest
    else
      match splitNL rest with
      | h :: t => (c :: h) :: t
      | [] => [[c]]

def goFieldsAux : Str → Str → List Str
  | cur, [] => if cur.isEmpty then [] else [cur.reverse]
  | cur, c :: rest =>
    if goIsSpace c then
      if cur.isEmpty then goFieldsAux [] rest else cur.reverse :: goFieldsAux [] rest
    else goFieldsAux (c :: cur) rest

/-- Go `strings.Fields`: split around runs of Unicode whitespace. -/
def goFields (s : Str) : List Str := goFieldsAux [] s

/-- Go `strings.EqualFold`, restricted to ASCII folding. -/
def asciiEqualFold (a b : Str) : Bool := goToLower a == goToLower b

/-- Composition of `strings.ReplaceAll(s, "\r\n", "\n")` and `strings.ReplaceAll(s, "\r", "\n")`. -/
def replCRLF : Str → Str
  | [] => []
  | '\r' :: '\n' :: rest => '\n' :: replCRLF rest
  | '\r' :: rest => '\n' :: replCRLF rest
  | c :: rest => c :: replCRLF rest

def digitChar (d : Nat) : Char := Char.ofNat (48 + d)

/-- Digit loop of the decimal rendering; the fuel argument strictly exceeds the
number of digits on every call reachable from `natStr`. -/
def natStrF : Nat → Nat → Str
  | 0, _ => []
  | fuel + 1, n =>
    if n < 10 then [digitChar n]
    else natStrF fuel (n / 10) ++ [digitChar (n % 10)]

/-- Decimal rendering of a natural number (`strconv.Itoa` on non-negative input). -/
def natStr (n : Nat) : Str := natStrF (n + 1) n

/-- Go `strings.Join(items, sep)`. -/
def joinWith (sep : Str) : List Str → Str
  | [] => []
  | [x] => x
  | x :: rest => x ++ sep ++ joinWith sep rest

/- ## Regex-equivalent matchers

Each matcher implements the matching semantics of one `regexp.MustCompile`
pattern from `analyzer.go` / `engine_analyzer.go`, at the rune level. -/

def dropWs (s : Str) : Str := s.dropWhile reSpace

/-- Case-insensitive literal at the head of the input ((?i) over ASCII). -/
def ciAt (pat : Str) (s : Str) : Bool := pat == (s.take pat.length).map asciiToUpper

/-- Consume a case-insensitive literal. -/
def expectCi (pat : Str) (s : Str) : Option Str :=
  if ciAt pat s then some (s.drop pat.length) else none

/-- Consume `\s+` when the following token starts with a non-space character. -/
def expectWs1 : Str → Option Str
  | [] => none
  | c :: cs => if reSpace c then some (dropWs cs) else none

/-- Word boundary `\b` after a word character: next char absent or not a word char. -/
def wbAt : Str → Bool
  | [] => true
  | c :: _ => !isWordChar c

/-- Unanchored search: does `p` match at some suffix? -/
def anywhere (p : Str → Bool) : Str → Bool
  | [] => p []
  | c :: cs => p (c :: cs) || anywhere p cs

def anywhereWBAux (p : Str → Bool) : Bool → Str → Bool
  | _, [] => false
  | ok, c :: cs => (ok && p (c :: cs)) || anywhereWBAux p (!isWordChar c) cs

/-- Unanchored search at positions preceded by a non-word character (for `\b` before a word). -/
def anywhereWB (p : Str → Bool) (s : Str) : Bool := anywhereWBAux p true s

/-- Suffix check for `\s+.+$` under `(?s)`: one whitespace, then at least one more character. -/
def tailWsAny1 : Str → Bool
  | c :: _ :: _ => reSpace c
  | _ => false

/-- Search for `\s+KW` followed by `tailOk`, starting no earlier than index 2
(used for the `.+?` separator in `UPDATE ... SET` / `ALTER TABLE ... DROP`). -/
def scanMid (kw : Str) (tailOk : Str → Bool) : Nat → Str → Bool
  | _, [] => false
  | pos, c :: cs =>
    (decide (2 ≤ pos) && reSpace c && ciAt kw cs && tailOk (cs.drop kw.length)) ||
      scanMid kw tailOk (pos + 1) cs

/-- Go regex `(?is)^\s*UPDATE\s+.+?\s+SET\s+.+$`. -/
def reUpdateNoWhere (s : Str) : Bool :=
  match expectCi (str "UPDATE") (dropWs s) with
  | some r =>
    (match r with
     | c :: _ => reSpace c
     | [] => false) && scanMid (str "SET") tailWsAny1 0 r
  | none => false

/-- Go regex `(?is)^\s*DELETE\s+FROM\s+.+$`. -/
def reDeleteNoWhere (s : Str) : Bool :=
  match (do
    let t ← expectCi (str "DELETE") (dropWs s)
    let t ← expectWs1 t
    expectCi (str "FROM") t) with
  | some t => tailWsAny1 t
  | none => false

/-- Go regex `(?is)^\s*SELECT\s+\*\s+FROM\s+`. -/
def reSelectStar (s : Str) : Bool :=
  (do
    let t ← expectCi (str "SELECT") (dropWs s)
    let t ← expectWs1 t
    let t ← expectCi (str "*") t
    let t ← expectWs1 t
    let t ← expectCi (str "FROM") t
    expectWs1 t).isSome

/-- Go regex `(?is)^\s*SELECT\s+`. -/
def reSelect (s : Str) : Bool :=
  ((expectCi (str "SELECT") (dropWs s)).bind expectWs1).isSome

/-- Head match for `\s+LIMIT\s+\d+`. -/
def limitAt : Str → Bool
  | [] => false
  | c :: rest =>
    reSpace c &&
      (match expectCi (str "LIMIT") (dropWs rest) with
       | some t =>
         (match t with
          | d :: _ => reSpace d
          | [] => false) &&
           (match dropWs t with
            | e :: _ => e.isDigit
            | [] => false)
       | none => false)

/-- Go regex `(?is)\s+LIMIT\s+\d+` (unanchored). -/
def reLimit (s : Str) : Bool := anywhere limitAt s

/-- Go regex `(?is)^\s*DROP\s+(TABLE|DATABASE|VIEW|INDEX)\b`. -/
def reDropObj (s : Str) : Bool :=
  match ((expectCi (str "DROP") (dropWs s)).bind expectWs1) with
  | some t =>
    [str "TABLE", str "DATABASE", str "VIEW", str "INDEX"].any
      (fun kw => ciAt kw t && wbAt (t.drop kw.length))
  | none => false

/-- Go regex `(?is)^\s*TRUNCATE\s+TABLE\b`. -/
def reTruncate (s : Str) : Bool :=
  match ((expectCi (str "TRUNCATE") (dropWs s)).bind expectWs1) with
  | some t => ciAt (str "TABLE") t && wbAt (t.drop 5)
  | none => false

/-- Tail check for `\s+COLUMN\b`. -/
def colTail : Str → Bool
  | [] => false
  | c :: rest =>
    reSpace c &&
      (let u := dropWs (c :: rest)
       ciAt (str "COLUMN") u && wbAt (u.drop 6))

/-- Go regex `(?is)^\s*ALTER\s+TABLE\s+.+\s+DROP\s+COLUMN\b`. -/
def reAlterDropCol (s : Str) : Bool :=
  match (do
    let t ← expectCi (str "ALTER") (dropWs s)
    let t ← expectWs1 t
    expectCi (str "TABLE") t) with
  | some r =>
    (match r with
     | c :: _ => reSpace c
     | [] => false) && scanMid (str "DROP") colTail 0 r
  | none => false

/-- Head match for `\bINTO\s+OUTFILE\b` (boundary before handled by the caller). -/
def intoOutfileAt (s : Str) : Bool :=
  match (do
    let t ← expectCi (str "INTO") s
    let t ← expectWs1 t
    expectCi (str "OUTFILE") t) with
  | some t => wbAt t
  | none => false

/-- Go regex `(?is)\bINTO\s+OUTFILE\b`. -/
def reSelectIntoOut (s : Str) : Bool := anywhereWB intoOutfileAt s

/-- Head match for `\bWHERE\s+1\s*=\s*1\b`. -/
def whereOneEqOneAt (s : Str) : Bool :=
  match (do
    let t ← expectCi (str "WHERE") s
    let t ← expectWs1 t
    expectCi (str "1") t) with
  | some t =>
    (match expectCi (str "=") (dropWs t) with
     | some v =>
       (match expectCi (str "1") (dropWs v) with
        | some x => wbAt x
        | none => false)
     | none => false)
  | none => false

/-- Go regex `(?is)\bWHERE\s+1\s*=\s*1\b`. -/
def reWhereOneEqOne (s : Str) : Bool := anywhereWB whereOneEqOneAt s

/-- Head match for `ORDER\s+BY\s+RAND\s*\(`. -/
def orderByRandAt (s : Str) : Bool :=
  match (do
    let t ← expectCi (str "ORDER") s
    let t ← expectWs1 t
    let t ← expectCi (str "BY") t
    let t ← expectWs1 t
    expectCi (str "RAND") t) with
  | some t => (expectCi (str "(") (dropWs t)).isSome
  | none => false

/-- Go regex `(?is)ORDER\s+BY\s+RAND\s*\(` (unanchored, no boundary). -/
def reOrderByRand (s : Str) : Bool := anywhere orderByRandAt s

/-- Quoted leading-wildcard tail `['"]%[^'"]*['"]`. -/
def quotePct : Str → Bool
  | q :: '%' :: rest =>
    (q == '\'' || q == '"') &&
      !(rest.dropWhile (fun c => !(c == '\'' || c == '"'))).isEmpty
  | _ => false

/-- Head match for `KW\s+['"]%[^'"]*['"]`. -/
def likeKwWildAt (kw : Str) (s : Str) : Bool :=
  match ((expectCi kw s).bind expectWs1) with
  | some t => quotePct t
  | none => false

/-- Go regex `(?is)LIKE\s+['"]%[^'"]*['"]` (unanchored). -/
def reLikeLeadWild (s : Str) : Bool := anywhere (likeKwWildAt (str "LIKE")) s

/-- Go regex `(?is)(LIKE|ILIKE)\s+['"]%[^'"]*['"]` (unanchored). -/
def rePostgresLikeLeadWild (s : Str) : Bool :=
  anywhere (fun t => likeKwWildAt (str "LIKE") t || likeKwWildAt (str "ILIKE") t) s

/-- Go regex `(?is)^\s*INSERT\s+INTO\s+[\w.]+\s+VALUES\s*\(`. -/
def reInsertNoCols (s : Str) : Bool :=
  match (do
    let t ← expectCi (str "INSERT") (dropWs s)
    let t ← expectWs1 t
    let t ← expectCi (str "INTO") t
    expectWs1 t) with
  | some t =>
    let name := t.takeWhile (fun c => isWordChar c || c == '.')
    let rest := t.drop name.length
    decide (0 < name.length) &&
      (match ((expectWs1 rest).bind (expectCi (str "VALUES"))) with
       | some u => (expectCi (str "(") (dropWs u)).isSome
       | none => false)
  | none => false

/-- Go regex `(?is)^\s*CREATE\s+TABLE\s+`. -/
def reCreateTable (s : Str) : Bool :=
  (do
    let t ← expectCi (str "CREATE") (dropWs s)
    let t ← expectWs1 t
    let t ← expectCi (str "TABLE") t
    expectWs1 t).isSome

/-- Go regex `(?is)^\s*CREATE\s+TABLE\s+IF\s+NOT\s+EXISTS\s+`. -/
def reCreateIfNE (s : Str) : Bool :=
  (do
    let t ← expectCi (str "CREATE") (dropWs s)
    let t ← expectWs1 t
    let t ← expectCi (str "TABLE") t
    let t ← expectWs1 t
    let t ← expectCi (str "IF") t
    let t ← expectWs1 t
    let t ← expectCi (str "NOT") t
    let t ← expectWs1 t
    let t ← expectCi (str "EXISTS") t
    expectWs1 t).isSome

/-- Go regex `(?is)^\s*(BEGIN|START\s+TRANSACTION)\b`. -/
def reBeginTx (s : Str) : Bool :=
  let t := dropWs s
  (ciAt (str "BEGIN") t && wbAt (t.drop 5)) ||
    (match (do
      let u ← expectCi (str "START") t
      let u ← expectWs1 u
      expectCi (str "TRANSACTION") u) with
     | some u => wbAt u
     | none => false)

/-- Go regex `(?is)^\s*COMMIT\b`. -/
def reCommitTx (s : Str) : Bool :=
  let t := dropWs s
  ciAt (str "COMMIT") t && wbAt (t.drop 6)

/-- Go regex `(?is)^\s*(UPDATE|DELETE|INSERT|ALTER|DROP|TRUNCATE)\b`. -/
def reRiskWrite (s : Str) : Bool :=
  let t := dropWs s
  [str "UPDATE", str "DELETE", str "INSERT", str "ALTER", str "DROP", str "TRUNCATE"].any
    (fun kw => ciAt kw t && wbAt (t.drop kw.length))

/-- Keyword alternative `(PROCEDURE|FUNCTION|TRIGGER|EVENT)\b`. -/
def routineKwAt (t : Str) : Bool :=
  [str "PROCEDURE", str "FUNCTION", str "TRIGGER", str "EVENT"].any
    (fun kw => ciAt kw t && wbAt (t.drop kw.length))

/-- Head match for `CREATE\s+(?:DEFINER\s*=\s*[^\s]+\s+)?(?:PROCEDURE|FUNCTION|TRIGGER|EVENT)\b`. -/
def routineAt (s : Str) : Bool :=
  match ((expectCi (str "CREATE") s).bind expectWs1) with
  | some t =>
    routineKwAt t ||
      (match expectCi (str "DEFINER") t with
       | some u =>
         (match expectCi (str "=") (dropWs u) with
          | some v =>
            let v2 := dropWs v
            let nm := v2.takeWhile (fun c => !reSpace c)
            decide (0 < nm.length) &&
              (match expectWs1 (v2.drop nm.length) with
               | some w => routineKwAt w
               | none => false)
          | none => false)
       | none => false)
  | none => false

/-- Go regex `(?is)\bCREATE\s+(?:DEFINER\s*=\s*[^\s]+\s+)?(?:PROCEDURE|FUNCTION|TRIGGER|EVENT)\b`. -/
def reRoutineDefinition (content : Str) : Bool := anywhereWB routineAt content

/-- Single-token statement-start keywords of `reStatementStart` (soft set) and
`reHardStatementStart` (hard set); `START TRANSACTION` is handled separately. -/
def singleStartKeywords (hard : Bool) : List Str :=
  if hard then
    [str "INSERT", str "UPDATE", str "DELETE", str "CREATE", str "ALTER", str "DROP",
     str "TRUNCATE", str "CALL", str "REPLACE", str "MERGE", str "BEGIN",
     str "COMMIT", str "ROLLBACK"]
  else
    [str "SELECT", str "INSERT", str "UPDATE", str "DELETE", str "CREATE", str "ALTER",
     str "DROP", str "TRUNCATE", str "WITH", str "CALL", str "REPLACE", str "MERGE",
     str "BEGIN", str "COMMIT", str "ROLLBACK"]

/-- Keyword alternative of `reStatementStart`/`reHardStatementStart` at the head. -/
def stmtKeywordAtB (hard : Bool) (s : Str) : Bool :=
  (singleStartKeywords hard).any (fun kw => ciAt kw s && wbAt (s.drop kw.length)) ||
    (match (do
      let t ← expectCi (str "START") s
      let t ← expectWs1 t
      expectCi (str "TRANSACTION") t) with
     | some t => wbAt t
     | none => false)

/-- Go regex `(?im)^\s*(SELECT|...)\b` applied to a single (newline-free) line. -/
def reStatementStartLine (line : Str) : Bool := stmtKeywordAtB false (dropWs line)

/-- Number of matches of `(?im)^\s*(KW...)\b` over a whole text
(`len(re.FindAllString(s, -1))`): keyword occurrences preceded only by
whitespace since the last line start.  The flag records whether every
character since the last newline is regexp whitespace. -/
def countStmtStarts (hard : Bool) : Bool → Str → Nat
  | _, [] => 0
  | atLS, c :: cs =>
    (if atLS && stmtKeywordAtB hard (c :: cs) then 1 else 0) +
      countStmtStarts hard (if c == '\n' then true else atLS && reSpace c) cs

/- ## Character-level scanners -/

/-- Parity of the backslash run immediately before the next position
(`isEscapedByBackslash`), threaded forwards one character at a time. -/
def escStep (b : Bool) (c : Char) : Bool := c == '\\' && !b

def backquoteChar : Char := Char.ofNat 96

def lbrace : Char := Char.ofNat 123

def rbrace : Char := Char.ofNat 125

/-- Go `isFullwidthSemicolon`: the East-Asian full-width semicolon U+FF1B. -/
def isFullwidthSemicolon (c : Char) : Bool := c == '；'

/-- Go `stripCommentsAndStrings`: blank out comments and the contents of
single-, double- and back-quoted strings, preserving newlines.  The six Booleans
are the quote/comment state flags and the backslash-run parity.  Every step
consumes at least one character, so a fuel equal to the input length (as passed
by `stripCommentsAndStrings`) never runs out; the fuel-exhausted case is
unreachable from that call. -/
def stripCAS : Nat → Bool → Bool → Bool → Bool → Bool → Bool → Str → Str
  | 0, _, _, _, _, _, _, _ => []
  | _ + 1, _, _, _, _, _, _, [] => []
  | fuel + 1, inS, inD, inB, inLC, inBC, esc, c :: cs =>
    let nxt := cs.headD (Char.ofNat 0)
    if inLC then
      if c == '\n' then '\n' :: stripCAS fuel inS inD inB false inBC (escStep esc c) cs
      else stripCAS fuel inS inD inB inLC inBC (escStep esc c) cs
    else if inBC then
      if c == '*' && nxt == '/' then stripCAS fuel inS inD inB inLC false false cs.tail
      else if c == '\n' then '\n' :: stripCAS fuel inS inD inB inLC inBC (escStep esc c) cs
      else stripCAS fuel inS inD inB inLC inBC (escStep esc c) cs
    else if !inS && !inD && !inB && c == '-' && nxt == '-' then
      stripCAS fuel inS inD inB true inBC false cs.tail
    else if !inS && !inD && !inB && c == '#' then
      stripCAS fuel inS inD inB true inBC (escStep esc c) cs
    else if !inS && !inD && !inB && c == '/' && nxt == '*' then
      stripCAS fuel inS inD inB inLC true false cs.tail
    else if inS then
      (if c == '\n' then '\n' else ' ') ::
        stripCAS fuel (if c == '\'' && !esc then false else inS) inD inB inLC inBC (escStep esc c) cs
    else if inD then
      (if c == '\n' then '\n' else ' ') ::
        stripCAS fuel inS (if c == '"' && !esc then false else inD) inB inLC inBC (escStep esc c) cs
    else if inB then
      (if c == '\n' then '\n' else ' ') ::
        stripCAS fuel inS inD (if c == backquoteChar then false else inB) inLC inBC (escStep esc c) cs
    else if c == '\'' then ' ' :: stripCAS fuel true inD inB inLC inBC (escStep esc c) cs
    else if c == '"' then ' ' :: stripCAS fuel inS true inB inLC inBC (escStep esc c) cs
    else if c == backquoteChar then ' ' :: stripCAS fuel inS inD true inLC inBC (escStep esc c) cs
    else c :: stripCAS fuel inS inD inB inLC inBC (escStep esc c) cs

def stripCommentsAndStrings (content : Str) : Str :=
  stripCAS content.length false false false false false false content

/-- Go `parseDelimiterDirective`: recognise a `DELIMITER <token>` line. -/
def parseDelimiterDirective (line : Str) : Option Str :=
  let trimmed := goTrimSpace line
  if trimmed.isEmpty then none
  else
    match goFields trimmed with
    | p0 :: p1 :: _ =>
      if asciiEqualFold p0 (str "DELIMITER") then
        let d := goTrimSpace p1
        if d.isEmpty then some (str ";") else some d
      else none
    | _ => none

/-- Go `detectLineTerminator`: (terminated, usedFullwidthTerminator). -/
def detectLineTerminator (line : Str) : Bool × Bool :=
  let t := goTrimSpace line
  if chEndsWith t (str ";") then (true, false)
  else if chEndsWith t (str "；") then (true, true)
  else (false, false)

/-- Go `hasStatementTerminatorSuffix`. -/
def hasStatementTerminatorSuffix (normalized : Str) : Bool :=
  let t := goTrimSpace normalized
  chEndsWith t (str ";") || chEndsWith t (str "；")

/-- State of the `splitSQLStatements` scanner: emitted statements, current
builder, active delimiter, quote flags and block-comment flag. -/
structure SplitState where
  items : List Str
  builder : Str
  delim : Str
  inS : Bool
  inD : Bool
  inB : Bool
  inBC : Bool
deriving DecidableEq

/-- Emit the trimmed builder if non-empty (the splitter's flush step). -/
def flushItems (items : List Str) (b : Str) : List Str :=
  let piece := goTrimSpace b
  if piece.isEmpty then items else items ++ [piece]

/-- Inner per-line loop of Go `splitSQLStatements`; `inLC` is the per-line
line-comment flag, `esc` the backslash-run parity within the line.  Every step
consumes at least one character, so the fuel passed by `scanLineChars` (the
input length) never runs out; the fuel-exhausted case is unreachable. -/
def scanLineCharsF : Nat → SplitState → Bool → Bool → Str → SplitState
  | 0, st, _, _, _ => st
  | _ + 1, st, _, _, [] => st
  | fuel + 1, st, inLC, esc, c :: cs =>
    let nxt := cs.headD (Char.ofNat 0)
    if inLC then
      if c == '\n' then
        scanLineCharsF fuel { st with builder := st.builder ++ ['\n'] } false (escStep esc c) cs
      else scanLineCharsF fuel st inLC (escStep esc c) cs
    else if st.inBC then
      if c == '*' && nxt == '/' then scanLineCharsF fuel { st with inBC := false } inLC false cs.tail
      else scanLineCharsF fuel st inLC (escStep esc c) cs
    else if !st.inS && !st.inD && !st.inB && c == '-' && nxt == '-' then
      scanLineCharsF fuel st true false cs.tail
    else if !st.inS && !st.inD && !st.inB && c == '#' then
      scanLineCharsF fuel st true (escStep esc c) cs
    else if !st.inS && !st.inD && !st.inB && c == '/' && nxt == '*' then
      scanLineCharsF fuel { st with inBC := true } inLC false cs.tail
    else
      let st1 := if c == '\'' && !st.inD && !st.inB && !esc then { st with inS := !st.inS } else st
      let st2 := if c == '"' && !st1.inS && !st1.inB && !esc then { st1 with inD := !st1.inD } else st1
      let st3 := if c == backquoteChar && !st2.inS && !st2.inD then { st2 with inB := !st2.inB } else st2
      if !st3.inS && !st3.inD && !st3.inB && decide (0 < st3.delim.length) &&
          st3.delim.isPrefixOf (c :: cs) then
        scanLineCharsF fuel { st3 with items := flushItems st3.items st3.builder, builder := [] }
          inLC (List.foldl escStep esc st3.delim) (cs.drop (st3.delim.length - 1))
      else if !st3.inS && !st3.inD && !st3.inB && decide (0 < st3.delim.length) &&
          st3.delim == [';'] && isFullwidthSemicolon c then
        scanLineCharsF fuel { st3 with items := flushItems st3.items st3.builder, builder := [] }
          inLC (escStep esc c) cs
      else
        scanLineCharsF fuel { st3 with builder := st3.builder ++ [c] } inLC (escStep esc c) cs

/-- The per-line loop at its full fuel budget. -/
def scanLineChars (st : SplitState) (inLC esc : Bool) (s : Str) : SplitState :=
  scanLineCharsF s.length st inLC esc s

/-- Per-line dispatch of Go `splitSQLStatements`: a `DELIMITER` directive line
(outside quotes and comments) updates the active delimiter, every other line
is scanned character by character. -/
def splitSQLLines : SplitState → List Str → SplitState
  | st, [] => st
  | st, line :: rest =>
    if !st.inS && !st.inD && !st.inB && !st.inBC then
      match parseDelimiterDirective line with
      | some d => splitSQLLines { st with delim := d } rest
      | none => splitSQLLines (scanLineChars st false false line) rest
    else splitSQLLines (scanLineChars st false false line) rest

/-- Go `splitSQLStatements`: split a script into trimmed statement texts. -/
def splitSQLStatements (content : Str) : List Str :=
  let lines := splitAfterNL content
  let lines := if lines.isEmpty then [content] else lines
  let st := splitSQLLines ⟨[], [], [';'], false, false, false, false⟩ lines
  flushItems st.items st.builder

/- ## Line-start heuristic splitter -/

/-- Go `sqlHeuristicStatement`. -/
structure SqlHeuristicStatement where
  text : Str
  terminated : Bool
  fullwidthTerminator : Bool
deriving DecidableEq

/-- Flush step of `splitSQLByLineStartHeuristicDetailed`. -/
def heuristicFlush (acc : List SqlHeuristicStatement) (b : Str) (term fw : Bool) :
    List SqlHeuristicStatement :=
  let s := goTrimSpace b
  if s.isEmpty then acc else acc ++ [⟨s, term, fw⟩]

/-- Line loop of Go `splitSQLByLineStartHeuristicDetailed`. -/
def heuristicLines : List SqlHeuristicStatement → Str → List Str → List SqlHeuristicStatement
  | acc, builder, [] => heuristicFlush acc builder false false
  | acc, builder, rawLine :: rest =>
    let line := goTrimSpace rawLine
    if line.isEmpty then heuristicLines acc builder rest
    else if chStartsWith line (str "--") || chStartsWith line (str "#") then
      heuristicLines acc builder rest
    else
      let startNew := !builder.isEmpty && reStatementStartLine line
      let acc2 := if startNew then heuristicFlush acc builder false false else acc
      let b2 := if startNew then ([] : Str) else builder
      let b3 := if b2.isEmpty then line else b2 ++ '\n' :: line
      match detectLineTerminator line with
      | (true, fw) => heuristicLines (heuristicFlush acc2 b3 true fw) [] rest
      | (false, _) => heuristicLines acc2 b3 rest

/-- Go `splitSQLByLineStartHeuristicDetailed`. -/
def splitSQLByLineStartHeuristicDetailed (content : Str) : List SqlHeuristicStatement :=
  heuristicLines [] [] (splitNL (replCRLF content))

/-- Go `hasLikelyMergedStatements`: does some delimiter-based fragment contain
two hard statement starts, or one hard start plus two starts overall? -/
def hasLikelyMergedStatements (statements : List Str) : Bool :=
  statements.any (fun st =>
    let normalized := goTrimSpace (stripCommentsAndStrings st)
    if normalized.isEmpty then false
    else
      let allStarts := countStmtStarts false true normalized
      let hardStarts := countStmtStarts true true normalized
      decide (2 ≤ hardStarts) || (decide (1 ≤ hardStarts) && decide (2 ≤ allStarts)))

/- ## Mongo operation scanner -/

/-- Go `mongoOperation`. -/
structure MongoOperation where
  text : Str
  terminated : Bool
  fullwidthTerminator : Bool
deriving DecidableEq

/-- Flush step of `parseMongoOperations`. -/
def mongoFlush (items : List MongoOperation) (b : Str) (term fw : Bool) : List MongoOperation :=
  let s := goTrimSpace b
  if s.isEmpty then items else items ++ [⟨s, term, fw⟩]

/-- Sequential quote-flag updates of the Mongo scanner (one character step). -/
def mongoQuoteFlags (c : Char) (inS inD inB esc : Bool) : Bool × Bool × Bool :=
  let inS2 := if c == '\'' && !inD && !inB && !esc then !inS else inS
  let inD2 := if c == '"' && !inS2 && !inB && !esc then !inD else inD
  let inB2 := if c == backquoteChar && !inS2 && !inD2 then !inB else inB
  (inS2, inD2, inB2)

/-- Paren/brace/bracket depth updates of the Mongo scanner (one character step). -/
def mongoDepths (c : Char) (pd bd kd : Nat) : Nat × Nat × Nat :=
  (if c == '(' then pd + 1 else if c == ')' && decide (0 < pd) then pd - 1 else pd,
   if c == lbrace then bd + 1 else if c == rbrace && decide (0 < bd) then bd - 1 else bd,
   if c == '[' then kd + 1 else if c == ']' && decide (0 < kd) then kd - 1 else kd)

/-- Character loop of Go `parseMongoOperations`: the arguments are the emitted
operations, the builder, the three quote flags, the two comment flags, the
paren/brace/bracket depths and the backslash-run parity.  Every step consumes
at least one character, so the fuel passed by `parseMongoOperations` (the input
length) never runs out; the fuel-exhausted case is unreachable. -/
def parseMongoAux :
    Nat → List MongoOperation → Str → Bool → Bool → Bool → Bool → Bool → Nat → Nat → Nat → Bool →
      Str → List MongoOperation
  | 0, items, b, _, _, _, _, _, _, _, _, _, _ => mongoFlush items b false false
  | _ + 1, items, b, _, _, _, _, _, _, _, _, _, [] => mongoFlush items b false false
  | fuel + 1, items, b, inS, inD, inB, inLC, inBC, pd, bd, kd, esc, c :: cs =>
    let nxt := cs.headD (Char.ofNat 0)
    if inLC then
      if c == '\n' then
        if !inS && !inD && !inB && pd == 0 && bd == 0 && kd == 0 then
          parseMongoAux fuel (mongoFlush items b false false) [] inS inD inB false inBC pd bd kd
            (escStep esc c) cs
        else parseMongoAux fuel items b inS inD inB false inBC pd bd kd (escStep esc c) cs
      else parseMongoAux fuel items b inS inD inB inLC inBC pd bd kd (escStep esc c) cs
    else if inBC then
      if c == '*' && nxt == '/' then
        parseMongoAux fuel items b inS inD inB inLC false pd bd kd false cs.tail
      else parseMongoAux fuel items b inS inD inB inLC inBC pd bd kd (escStep esc c) cs
    else if !inS && !inD && !inB && c == '/' && nxt == '/' then
      parseMongoAux fuel items b inS inD inB true inBC pd bd kd false cs.tail
    else if !inS && !inD && !inB && c == '/' && nxt == '*' then
      parseMongoAux fuel items b inS inD inB inLC true pd bd kd false cs.tail
    else
      match mongoQuoteFlags c inS inD inB esc with
      | (inS2, inD2, inB2) =>
        if !inS2 && !inD2 && !inB2 then
          if isFullwidthSemicolon c && pd == 0 && bd == 0 && kd == 0 then
            parseMongoAux fuel (mongoFlush items b true true) [] inS2 inD2 inB2 inLC inBC pd bd kd
              (escStep esc c) cs
          else
            match mongoDepths c pd bd kd with
            | (pd2, bd2, kd2) =>
              if c == ';' && pd2 == 0 && bd2 == 0 && kd2 == 0 then
                parseMongoAux fuel (mongoFlush items b true false) [] inS2 inD2 inB2 inLC inBC
                  pd2 bd2 kd2 (escStep esc c) cs
              else if c == '\n' && pd2 == 0 && bd2 == 0 && kd2 == 0 then
                parseMongoAux fuel (mongoFlush items b false false) [] inS2 inD2 inB2 inLC inBC
                  pd2 bd2 kd2 (escStep esc c) cs
              else
                parseMongoAux fuel items (b ++ [c]) inS2 inD2 inB2 inLC inBC pd2 bd2 kd2
                  (escStep esc c) cs
        else parseMongoAux fuel items (b ++ [c]) inS2 inD2 inB2 inLC inBC pd bd kd (escStep esc c) cs
/-- Go `parseMongoOperations`. -/
def parseMongoOperations (content : Str) : List MongoOperation :=
  parseMongoAux (replCRLF content).length [] [] false false false false false 0 0 0 false
    (replCRLF content)

/-- Go `compactScriptText`: trim, then delete spaces, tabs and line breaks. -/
def compactScriptText (s : Str) : Str :=
  (goTrimSpace s).filter (fun c => !(c == ' ' || c == '\t' || c == '\n' || c == '\r'))

/- ## Data model -/

/-- Go `IssueLevel`; the analysis core only ever constructs these three values. -/
inductive IssueLevel where
  | error
  | warning
  | info
deriving DecidableEq

/-- Go `Issue`. -/
structure Issue where
  statementIndex : Nat
  level : IssueLevel
  rule : Str
  message : Str
  suggestion : Str
  statement : Str
deriving DecidableEq

/-- Go `Summary`. -/
structure Summary where
  statementCount : Nat
  errorCount : Nat
  warningCount : Nat
  infoCount : Nat
deriving DecidableEq

/-- Go `CheckResponse`. -/
structure CheckResponse where
  rulesVersion : Str
  checkedAt : Str
  summary : Summary
  issues : List Issue
  advice : List Str
deriving DecidableEq

/-- Go `AnalyzeOptions`: the caller's disabled-rule set (`nil` map modelled as `none`). -/
structure AnalyzeOptions where
  disabledRules : Option (List Str)
deriving DecidableEq

/-- Go `severityWeight`. -/
def severityWeight : IssueLevel → Nat
  | .error => 3
  | .warning => 2
  | .info => 1

/-- Comparison function handed to `sort.SliceStable` in all three analyzers:
ascending statement index, descending severity within one index. -/
def ltIssue (a b : Issue) : Bool :=
  if a.statementIndex == b.statementIndex then
    decide (severityWeight b.level < severityWeight a.level)
  else decide (a.statementIndex < b.statementIndex)

/-- Non-strict counterpart of `ltIssue`, the order produced by the stable sort. -/
def leIssueB (a b : Issue) : Bool := !ltIssue b a

/-- The non-strict sort order as a relation (for the stable-sort library). -/
def leIssueR (a b : Issue) : Prop := leIssueB a b = true

instance : DecidableRel leIssueR := fun a b => instDecidableEqBool (leIssueB a b) true

/-- The stable sort `sort.SliceStable(issues, less)` as a function on lists
(insertion sort is the stable sort on the comparison, and evaluates). -/
def sortIssues (l : List Issue) : List Issue := l.insertionSort leIssueR

/-- Go `ruleEnabled` (closure in `AnalyzeSQLWithOptions`): a rule is enabled
unless present in the non-nil disabled-rule map. -/
def ruleEnabledB (o : AnalyzeOptions) (rule : Str) : Bool :=
  match o.disabledRules with
  | none => true
  | some m => !decide (rule ∈ m)

/-- Go `summarizeIssues` (also the inline summary loop of `AnalyzeSQLWithOptions`). -/
def summarizeIssues (statementCount : Nat) (issues : List Issue) : Summary :=
  { statementCount := statementCount
    errorCount := issues.countP (fun i => i.level == .error)
    warningCount := issues.countP (fun i => i.level == .warning)
    infoCount := issues.countP (fun i => i.level == .info) }

/-- Go `buildAdvice`. -/
def buildAdvice (summary : Summary) : List Str :=
  (if decide (0 < summary.errorCount) then [str "存在高风险语句，建议阻断自动执行并人工复核"] else []) ++
  (if decide (0 < summary.warningCount) then [str "存在中风险项，建议补充执行计划与回滚预案"] else []) ++
  (if summary.errorCount == 0 && summary.warningCount == 0 then
    [str "未发现明显高风险模式，仍建议做一次业务语义抽样复查"] else [])

/-- Go `filterDisabledRules`: drop issues whose rule is in the disabled map. -/
def filterDisabledRules (result : CheckResponse) (o : AnalyzeOptions) : CheckResponse :=
  match o.disabledRules with
  | none => result
  | some m =>
    if m.isEmpty || result.issues.isEmpty then result
    else { result with issues := result.issues.filter (fun i => !decide (i.rule ∈ m)) }

/- ## Terminator heuristics -/

/-- Go `missingTerminatorStatement`. -/
structure MissingTS where
  index : Nat
  statement : Str
deriving DecidableEq

/-- Collection loop shared by `detectFullwidthTerminatorStatements` and the
merged-statement branch of `detectMissingTerminatorStatements`: keep the
statements satisfying `p`, at their 1-based indices, with non-empty text. -/
def collectHeuristicItems (p : SqlHeuristicStatement → Bool) :
    Nat → List SqlHeuristicStatement → List MissingTS
  | _, [] => []
  | i, s :: rest =>
    (if p s then
      (let t := goTrimSpace s.text
       if t.isEmpty then [] else [⟨i + 1, t⟩])
     else []) ++ collectHeuristicItems p (i + 1) rest

/-- Go `detectMissingTerminatorStatements`. -/
def detectMissingTerminatorStatements (content : Str) (statements : List Str)
    (containsRoutine : Bool) : List MissingTS :=
  if containsRoutine then []
  else
    let normalized := goTrimSpace (stripCommentsAndStrings content)
    if normalized.isEmpty then []
    else if chContains (goToUpper normalized) (str "DELIMITER ") then []
    else if hasLikelyMergedStatements statements then
      let detailed := splitSQLByLineStartHeuristicDetailed content
      if decide (detailed.length ≤ 1) then []
      else collectHeuristicItems (fun s => !s.terminated) 0 detailed
    else if decide (1 ≤ statements.length) && !hasStatementTerminatorSuffix normalized then
      match statements.getLast? with
      | some last =>
        let l := goTrimSpace last
        if l.isEmpty then [] else [⟨statements.length, l⟩]
      | none => []
    else []

/-- Go `detectFullwidthTerminatorStatements`. -/
def detectFullwidthTerminatorStatements (content : Str) (containsRoutine : Bool) :
    List MissingTS :=
  if containsRoutine then []
  else
    let detailed := splitSQLByLineStartHeuristicDetailed content
    if detailed.isEmpty then []
    else collectHeuristicItems (fun s => s.fullwidthTerminator) 0 detailed

/-- Go `excludeMissingTerminatorStatements`: drop missing-terminator items whose
index is also reported as a full-width-terminator index. -/
def excludeMissingTerminatorStatements (missing excludes : List MissingTS) : List MissingTS :=
  if missing.isEmpty || excludes.isEmpty then missing
  else missing.filter (fun item => !excludes.any (fun e => e.index == item.index))

/-- Go `buildMissingTerminatorIssueMessageWithSubject`. -/
def buildMissingTerminatorIssueMessageWithSubject (items : List MissingTS) (subject : Str) : Str :=
  match items with
  | [] => str "多条 " ++ subject ++ str " 语句疑似缺少结束符（;）"
  | [item] => str "第 " ++ natStr item.index ++ str " 条 " ++ subject ++ str " 语句疑似缺少结束符（;）"
  | _ =>
    str "第 " ++ joinWith (str "、") (items.map (fun i => natStr i.index)) ++ str " 条 " ++
      subject ++ str " 语句疑似缺少结束符（;）"

/-- Go `buildMissingTerminatorIssueMessage`. -/
def buildMissingTerminatorIssueMessage (items : List MissingTS) : Str :=
  buildMissingTerminatorIssueMessageWithSubject items (str "SQL")

/-- Go `buildFullwidthTerminatorIssueMessageWithSubject`. -/
def buildFullwidthTerminatorIssueMessageWithSubject (items : List MissingTS) (subject : Str) : Str :=
  match items with
  | [] => str "检测到中文结束符（；），请使用英文分号（;）"
  | [item] => str "第 " ++ natStr item.index ++ str " 条 " ++ subject ++ str " 语句使用了中文结束符（；）"
  | _ =>
    str "第 " ++ joinWith (str "、") (items.map (fun i => natStr i.index)) ++ str " 条 " ++
      subject ++ str " 语句使用了中文结束符（；）"

/-- Go `buildFullwidthTerminatorIssueMessage`. -/
def buildFullwidthTerminatorIssueMessage (items : List MissingTS) : Str :=
  buildFullwidthTerminatorIssueMessageWithSubject items (str "SQL")

/-- Go `buildMissingTerminatorStatementSnippet`: newline-join of the non-empty texts. -/
def buildMissingTerminatorStatementSnippet (items : List MissingTS) : Str :=
  joinWith (str "\n") ((items.filter (fun i => !i.statement.isEmpty)).map (fun i => i.statement))

/-- One conditionally-emitted issue (`addIssue` / `issues = append(issues, ...)` guarded by a check). -/
def optIssue (cond : Bool) (i : Issue) : List Issue := if cond then [i] else []

/- ## MySQL analyzer (analyzer.go, AnalyzeSQLWithOptions) -/

/-- Per-statement checks of the MySQL evaluator loop, in source order; `idx` is
the 1-based statement index, `stmt` the trimmed statement text. -/
def mysqlChecks (idx : Nat) (stmt : Str) : List Issue :=
  let upper := goToUpper stmt
  optIssue (reDropObj upper)
    ⟨idx, .error, str "dangerous_drop", str "检测到 DROP 高风险语句",
      str "生产建议禁用 DROP；确需执行请先做完整备份并审批", stmt⟩ ++
  optIssue (reTruncate upper)
    ⟨idx, .error, str "dangerous_truncate", str "检测到 TRUNCATE 语句",
      str "TRUNCATE 回滚代价高，请确认窗口期与恢复方案", stmt⟩ ++
  optIssue (reAlterDropCol upper)
    ⟨idx, .warning, str "alter_drop_column", str "检测到 ALTER TABLE DROP COLUMN",
      str "请确认上下游代码兼容，并提前完成历史数据归档", stmt⟩ ++
  optIssue (reUpdateNoWhere upper && !chContains upper (str " WHERE "))
    ⟨idx, .error, str "update_without_where", str "UPDATE 缺少 WHERE 条件",
      str "请添加精确 WHERE 条件，避免全表更新", stmt⟩ ++
  optIssue (reDeleteNoWhere upper && !chContains upper (str " WHERE "))
    ⟨idx, .error, str "delete_without_where", str "DELETE 缺少 WHERE 条件",
      str "请添加 WHERE 条件，或改为分批删除并保留回滚点", stmt⟩ ++
  optIssue (reWhereOneEqOne upper)
    ⟨idx, .warning, str "where_1_eq_1", str "检测到 WHERE 1=1，可能导致条件失效",
      str "请核查动态 SQL 拼接逻辑，避免误更新/误删除", stmt⟩ ++
  optIssue (reSelectStar upper)
    ⟨idx, .warning, str "select_star", str "SELECT * 可能带来性能和兼容风险",
      str "建议显式列出字段，减少 I/O 并降低结构变更影响", stmt⟩ ++
  optIssue (reSelect upper && !reLimit upper)
    ⟨idx, .info, str "select_without_limit", str "SELECT 未检测到 LIMIT",
      str "在线查询建议补充 LIMIT，避免大结果集拖慢库实例", stmt⟩ ++
  optIssue (reLikeLeadWild stmt)
    ⟨idx, .warning, str "like_leading_wildcard", str "LIKE 前导通配符可能导致索引失效",
      str "可考虑全文检索、倒排索引或改写匹配策略", stmt⟩ ++
  optIssue (reOrderByRand upper)
    ⟨idx, .warning, str "order_by_rand", str "ORDER BY RAND() 在大表上性能差",
      str "建议改用随机主键范围抽样或预生成随机池", stmt⟩ ++
  optIssue (reSelectIntoOut upper)
    ⟨idx, .error, str "into_outfile", str "检测到 INTO OUTFILE，存在数据外流风险",
      str "请确认导出合规性、审计记录及数据库账号最小权限", stmt⟩ ++
  optIssue (reInsertNoCols upper)
    ⟨idx, .info, str "insert_without_column_list", str "INSERT 未显式字段列表",
      str "建议 INSERT INTO t(col1,col2...) VALUES(...)，提高可维护性", stmt⟩ ++
  optIssue (reCreateTable upper && !reCreateIfNE upper)
    ⟨idx, .info, str "create_table_without_if_not_exists", str "CREATE TABLE 未使用 IF NOT EXISTS",
      str "建议补充 IF NOT EXISTS，提升脚本重放幂等性", stmt⟩

/-- The MySQL per-statement loop: statement `i` (0-based) is checked at index `i+1`;
whitespace-only fragments are skipped. -/
def mysqlStatementIssues : Nat → List Str → List Issue
  | _, [] => []
  | i, st :: rest =>
    (let stmt := goTrimSpace st
     if stmt.isEmpty then [] else mysqlChecks (i + 1) stmt) ++
      mysqlStatementIssues (i + 1) rest

/-- Script-level flag: some statement matches `reRiskWrite` (computed in the loop). -/
def sqlContainsRiskWrite (statements : List Str) : Bool :=
  statements.any (fun st =>
    let stmt := goTrimSpace st
    !stmt.isEmpty && reRiskWrite (goToUpper stmt))

/-- Script-level flag: some statement matches `reBeginTx`. -/
def sqlHasBegin (statements : List Str) : Bool :=
  statements.any (fun st =>
    let stmt := goTrimSpace st
    !stmt.isEmpty && reBeginTx (goToUpper stmt))

/-- Script-level flag: some statement matches `reCommitTx`. -/
def sqlHasCommit (statements : List Str) : Bool :=
  statements.any (fun st =>
    let stmt := goTrimSpace st
    !stmt.isEmpty && reCommitTx (goToUpper stmt))

/-- Condition of the script-level `risky_writes_without_transaction` warning. -/
def riskyWritesCond (statements : List Str) : Bool :=
  sqlContainsRiskWrite statements && decide (1 < statements.length) &&
    (!sqlHasBegin statements || !sqlHasCommit statements)

/-- Go message `fmt.Sprintf("SQL 语句数量较多（%d 条）", n)`. -/
def tooManyMessage (n : Nat) : Str := str "SQL 语句数量较多（" ++ natStr n ++ str " 条）"

/-- All issues generated by `AnalyzeSQLWithOptions` on a non-empty script, in
generation order, before disabled-rule filtering and sorting. -/
def mysqlPreIssues (content : Str) : List Issue :=
  let statements := splitSQLStatements content
  let containsRoutine := reRoutineDefinition content
  let fw := detectFullwidthTerminatorStatements content containsRoutine
  let missing :=
    excludeMissingTerminatorStatements
      (detectMissingTerminatorStatements content statements containsRoutine) fw
  optIssue containsRoutine
    ⟨0, .info, str "routine_definition_detected", str "检测到存储过程/函数/触发器定义",
      str "已按 DELIMITER 语法解析，请重点关注过程体中的写操作与权限控制", []⟩ ++
  optIssue (!fw.isEmpty)
    ⟨(fw.headD ⟨0, []⟩).index, .error, str "fullwidth_statement_terminator",
      buildFullwidthTerminatorIssueMessage fw,
      str "请将中文结束符（；）替换为英文半角分号（;），避免解析歧义",
      buildMissingTerminatorStatementSnippet fw⟩ ++
  optIssue (!missing.isEmpty)
    ⟨(missing.headD ⟨0, []⟩).index, .error, str "missing_statement_terminator",
      buildMissingTerminatorIssueMessage missing,
      str "建议为每条语句补齐结束符，避免自动审查/执行阶段误拆分",
      buildMissingTerminatorStatementSnippet missing⟩ ++
  optIssue (decide (60 < statements.length))
    ⟨0, .warning, str "too_many_statements", tooManyMessage statements.length,
      str "建议按业务模块拆分后分批审核，降低误判并方便回滚", []⟩ ++
  mysqlStatementIssues 0 statements ++
  optIssue (riskyWritesCond statements)
    ⟨0, .warning, str "risky_writes_without_transaction", str "检测到多条写语句但未发现完整事务边界",
      str "建议用 BEGIN/COMMIT 包裹，保证批量变更一致性", []⟩

/-- Shared `empty_input` issue of the SQL analyzers. -/
def sqlEmptyInputIssue : Issue :=
  ⟨0, .error, str "empty_input", str "SQL 内容为空",
    str "请上传 SQL 文件或粘贴 SQL 语句后再检查", []⟩

/-- Final (filtered and stable-sorted) issue list of the MySQL analyzer. -/
def mysqlFinalIssues (content : Str) (o : AnalyzeOptions) : List Issue :=
  sortIssues ((mysqlPreIssues content).filter (fun i => ruleEnabledB o i.rule))

/-- Go `AnalyzeSQLWithOptions` (MySQL engine); `now` stands for the
`time.Now().Format(time.RFC3339)` timestamp. -/
def analyzeSQLWithOptions (content : Str) (o : AnalyzeOptions) (now : Str) : CheckResponse :=
  if (goTrimSpace content).isEmpty then
    { rulesVersion := str "v1.3", checkedAt := now
      summary := ⟨0, 1, 0, 0⟩
      issues := if ruleEnabledB o (str "empty_input") then [sqlEmptyInputIssue] else []
      advice := [str "请输入待审核 SQL 后重试"] }
  else
    let issues := mysqlFinalIssues content o
    let summary := summarizeIssues (splitSQLStatements content).length issues
    { rulesVersion := str "v1.3", checkedAt := now, summary := summary, issues := issues
      advice := buildAdvice summary ++
        (if reRoutineDefinition content then
          [str "检测到存储过程/函数定义，建议补充过程权限控制、异常处理与审计日志检查"] else []) }

/- ## PostgreSQL analyzer (engine_analyzer.go, AnalyzePostgresWithOptions) -/

/-- Per-statement checks of the PostgreSQL evaluator loop, in source order. -/
def pgChecks (idx : Nat) (stmt : Str) : List Issue :=
  let upperTrim := goTrimSpace (goToUpper stmt)
  optIssue (reDropObj upperTrim)
    ⟨idx, .error, str "pg_dangerous_drop", str "检测到 DROP 高风险语句",
      str "生产建议禁用 DROP；确需执行请先备份并审批", stmt⟩ ++
  optIssue (reTruncate upperTrim)
    ⟨idx, .error, str "pg_dangerous_truncate", str "检测到 TRUNCATE 语句",
      str "TRUNCATE 风险高，请确认恢复方案", stmt⟩ ++
  optIssue (reUpdateNoWhere upperTrim && !chContains upperTrim (str " WHERE "))
    ⟨idx, .error, str "pg_update_without_where", str "UPDATE 缺少 WHERE 条件",
      str "请添加精确 WHERE 条件，避免全表更新", stmt⟩ ++
  optIssue (reDeleteNoWhere upperTrim && !chContains upperTrim (str " WHERE "))
    ⟨idx, .error, str "pg_delete_without_where", str "DELETE 缺少 WHERE 条件",
      str "请添加 WHERE 条件，或改为分批删除", stmt⟩ ++
  optIssue (reSelectStar upperTrim)
    ⟨idx, .warning, str "pg_select_star", str "SELECT * 可能带来性能和兼容风险",
      str "建议显式列出字段", stmt⟩ ++
  optIssue (reSelect upperTrim && !reLimit upperTrim)
    ⟨idx, .info, str "pg_select_without_limit", str "SELECT 未检测到 LIMIT",
      str "在线查询建议补充 LIMIT", stmt⟩ ++
  optIssue (rePostgresLikeLeadWild stmt)
    ⟨idx, .warning, str "pg_like_leading_wildcard", str "LIKE/ILIKE 前导通配符可能导致索引失效",
      str "可考虑全文检索或改写匹配策略", stmt⟩ ++
  optIssue (chStartsWith upperTrim (str "CREATE INDEX") && !chContains upperTrim (str " CONCURRENTLY "))
    ⟨idx, .warning, str "pg_create_index_without_concurrently", str "CREATE INDEX 未使用 CONCURRENTLY",
      str "在线变更建议使用 CONCURRENTLY 以降低锁影响", stmt⟩

/-- The PostgreSQL per-statement loop. -/
def pgStatementIssues : Nat → List Str → List Issue
  | _, [] => []
  | i, st :: rest =>
    (let stmt := goTrimSpace st
     if stmt.isEmpty then [] else pgChecks (i + 1) stmt) ++
      pgStatementIssues (i + 1) rest

/-- All issues generated by `AnalyzePostgresWithOptions` on a non-empty script,
in generation order, before sorting and disabled-rule filtering. -/
def pgPreIssues (content : Str) : List Issue :=
  let statements := splitSQLStatements content
  let fw := detectFullwidthTerminatorStatements content false
  let missing :=
    excludeMissingTerminatorStatements
      (detectMissingTerminatorStatements content statements false) fw
  optIssue (!fw.isEmpty)
    ⟨(fw.headD ⟨0, []⟩).index, .error, str "fullwidth_statement_terminator",
      buildFullwidthTerminatorIssueMessage fw,
      str "请将中文结束符（；）替换为英文半角分号（;），避免解析歧义",
      buildMissingTerminatorStatementSnippet fw⟩ ++
  optIssue (!missing.isEmpty)
    ⟨(missing.headD ⟨0, []⟩).index, .error, str "missing_statement_terminator",
      buildMissingTerminatorIssueMessage missing,
      str "建议为每条语句补齐结束符，避免自动审查/执行阶段误拆分",
      buildMissingTerminatorStatementSnippet missing⟩ ++
  optIssue (decide (80 < statements.length))
    ⟨0, .warning, str "too_many_statements", tooManyMessage statements.length,
      str "建议分批审核与执行，降低发布风险", []⟩ ++
  pgStatementIssues 0 statements ++
  optIssue (riskyWritesCond statements)
    ⟨0, .warning, str "risky_writes_without_transaction", str "检测到多条写语句但未发现完整事务边界",
      str "建议使用 BEGIN/COMMIT 包裹，保证一致性", []⟩

/-- Go `AnalyzePostgresWithOptions`. -/
def analyzePostgresWithOptions (content : Str) (o : AnalyzeOptions) (now : Str) : CheckResponse :=
  if (goTrimSpace content).isEmpty then
    filterDisabledRules
      { rulesVersion := str "pg-v0.1", checkedAt := now
        summary := summarizeIssues 0 [sqlEmptyInputIssue]
        issues := [sqlEmptyInputIssue]
        advice := [str "请输入待审核 SQL 后重试"] } o
  else
    let filtered :=
      filterDisabledRules
        { rulesVersion := str "pg-v0.1", checkedAt := now, summary := ⟨0, 0, 0, 0⟩
          issues := sortIssues (pgPreIssues content), advice := [] } o
    let summary := summarizeIssues (splitSQLStatements content).length filtered.issues
    { rulesVersion := str "pg-v0.1", checkedAt := now, summary := summary
      issues := filtered.issues, advice := buildAdvice summary }

/- ## MongoDB analyzer (engine_analyzer.go, AnalyzeMongoWithOptions) -/

/-- Item-collection loops of the Mongo analyzer over the parsed operations. -/
def mongoItems (p : MongoOperation → Bool) : Nat → List MongoOperation → List MissingTS
  | _, [] => []
  | i, op :: rest =>
    (if p op then
      (let t := goTrimSpace op.text
       if t.isEmpty then [] else [⟨i + 1, t⟩])
     else []) ++ mongoItems p (i + 1) rest

/-- Per-operation checks of the Mongo evaluator loop, in source order. -/
def mongoChecks (idx : Nat) (op : MongoOperation) : List Issue :=
  let compact := compactScriptText (goToLower op.text)
  if compact.isEmpty then []
  else
    optIssue (chContains compact (str ".updatemany(\x7b\x7d,"))
      ⟨idx, .error, str "mongo_update_many_without_filter", str "updateMany 使用空过滤条件，可能全量更新",
        str "请补充明确过滤条件", goTrimSpace op.text⟩ ++
    optIssue (chContains compact (str ".deletemany(\x7b\x7d)"))
      ⟨idx, .error, str "mongo_delete_many_without_filter", str "deleteMany 使用空过滤条件，可能全量删除",
        str "请补充明确过滤条件", goTrimSpace op.text⟩ ++
    optIssue (chContains compact (str ".find(") && !chContains compact (str ".limit("))
      ⟨idx, .info, str "mongo_find_without_limit", str "find 查询未设置 limit",
        str "在线查询建议加 limit，避免返回超大结果集", goTrimSpace op.text⟩ ++
    optIssue (chContains compact (str "$where"))
      ⟨idx, .warning, str "mongo_where_operator", str "检测到 $where，可能引入执行与安全风险",
        str "优先使用结构化查询条件，避免 JS 表达式", goTrimSpace op.text⟩ ++
    optIssue (chContains compact (str ".aggregate(") &&
        (chContains compact (str "$out") || chContains compact (str "$merge")))
      ⟨idx, .warning, str "mongo_aggregate_out_merge", str "聚合中使用 $out/$merge，存在数据覆盖风险",
        str "请确认目标集合、幂等策略与回滚预案", goTrimSpace op.text⟩

/-- The Mongo per-operation loop. -/
def mongoStatementIssues : Nat → List MongoOperation → List Issue
  | _, [] => []
  | i, op :: rest => mongoChecks (i + 1) op ++ mongoStatementIssues (i + 1) rest

/-- All issues generated by `AnalyzeMongoWithOptions` on a non-empty script,
in generation order, before sorting and disabled-rule filtering. -/
def mongoPreIssues (content : Str) : List Issue :=
  let ops := parseMongoOperations content
  let fwItems := mongoItems (fun op => op.fullwidthTerminator) 0 ops
  let missingItems := mongoItems (fun op => !op.terminated) 0 ops
  optIssue (!fwItems.isEmpty)
    ⟨(fwItems.headD ⟨0, []⟩).index, .error, str "fullwidth_statement_terminator",
      buildFullwidthTerminatorIssueMessageWithSubject fwItems (str "Mongo"),
      str "请将中文结束符（；）替换为英文半角分号（;），避免解析歧义",
      buildMissingTerminatorStatementSnippet fwItems⟩ ++
  optIssue (decide (1 < ops.length) && !missingItems.isEmpty)
    ⟨(missingItems.headD ⟨0, []⟩).index, .error, str "mongo_missing_statement_terminator",
      buildMissingTerminatorIssueMessageWithSubject missingItems (str "Mongo"),
      str "建议为每条 Mongo 语句补齐结束符 ;，避免脚本解析或执行阶段误拆分",
      buildMissingTerminatorStatementSnippet missingItems⟩ ++
  mongoStatementIssues 0 ops

/-- The Mongo `empty_input` issue. -/
def mongoEmptyInputIssue : Issue :=
  ⟨0, .error, str "empty_input", str "脚本内容为空",
    str "请上传脚本或粘贴 Mongo 操作语句后重试", []⟩

/-- Go `AnalyzeMongoWithOptions`. -/
def analyzeMongoWithOptions (content : Str) (o : AnalyzeOptions) (now : Str) : CheckResponse :=
  if (goTrimSpace content).isEmpty then
    filterDisabledRules
      { rulesVersion := str "mongo-v0.1", checkedAt := now
        summary := summarizeIssues 0 [mongoEmptyInputIssue]
        issues := [mongoEmptyInputIssue]
        advice := [str "请输入待审核脚本后重试"] } o
  else
    let filtered :=
      filterDisabledRules
        { rulesVersion := str "mongo-v0.1", checkedAt := now, summary := ⟨0, 0, 0, 0⟩
          issues := sortIssues (mongoPreIssues content), advice := [] } o
    let summary := summarizeIssues (parseMongoOperations content).length filtered.issues
    { rulesVersion := str "mongo-v0.1", checkedAt := now, summary := summary
      issues := filtered.issues, advice := buildAdvice summary }

/- ## Engine dispatch (engine_analyzer.go) -/

/-- Go `DBEngine` as a closed variant type. -/
inductive DBEngine where
  | mysql
  | postgresql
  | mongodb
deriving DecidableEq

/-- Wire representation of an engine value. -/
def engineString : DBEngine → Str
  | .mysql => str "mysql"
  | .postgresql => str "postgresql"
  | .mongodb => str "mongodb"

/-- Go `NormalizeEngine`: alias normalisation with MySQL fallback. -/
def normalizeEngine (raw : Str) : DBEngine :=
  let t := goToLower (goTrimSpace raw)
  if t == str "pg" || t == str "postgres" || t == str "postgresql" then .postgresql
  else if t == str "mongo" || t == str "mongodb" then .mongodb
  else .mysql

/-- Go `AnalyzeByEngine`: dispatch on the normalised engine string. -/
def analyzeByEngine (engine : DBEngine) (content : Str) (o : AnalyzeOptions) (now : Str) :
    CheckResponse :=
  match normalizeEngine (engineString engine) with
  | .postgresql => analyzePostgresWithOptions content o now
  | .mongodb => analyzeMongoWithOptions content o now
  | .mysql => analyzeSQLWithOptions content o now

/- ## Always-enabled rule enforcement (main.go) -/

/-- Go `alwaysEnabledRules` (main.go): rule codes that can never be disabled. -/
def alwaysEnabledRules : List Str :=
  [str "empty_input", str "missing_statement_terminator",
   str "mongo_missing_statement_terminator", str "fullwidth_statement_terminator"]

/-- Lexicographic order on rune sequences (`sort.Strings` comparison). -/
def ltStr : Str → Str → Bool
  | [], [] => false
  | [], _ :: _ => true
  | _ :: _, [] => false
  | a :: as, b :: bs => decide (a < b) || (a == b && ltStr as bs)

/-- The sort order of `sort.Strings` as a relation. -/
def leStrR (a b : Str) : Prop := (!ltStr b a) = true

instance : DecidableRel leStrR := fun a b => instDecidableEqBool (!ltStr b a) true

/-- Go `sort.Strings`: ascending lexicographic sort. -/
def sortStrs (l : List Str) : List Str := l.insertionSort leStrR

/-- Go `enforceAlwaysEnabledRules` (main.go): returns the disabled set after the
in-place deletions together with the sorted list of removed codes.  A nil or
empty map is returned untouched with no removals. -/
def enforceAlwaysEnabledRules (disabled : List Str) : List Str × List Str :=
  if disabled.isEmpty then (disabled, [])
  else
    (disabled.filter (fun code => !decide (code ∈ alwaysEnabledRules)),
     sortStrs (alwaysEnabledRules.filter (fun code => decide (code ∈ disabled))))

/-- Go `disabledRulesToSlice` (main.go): the disabled portion of the API response. -/
def disabledRulesToSlice (disabled : List Str) : List Str := sortStrs disabled

/- ## State-threading view of the disabled-rule map

Go passes `options.DisabledRules` as a mutable map.  To settle the frame
property (the analyzers never mutate it), every map operation the analyzers
perform is made explicit: a read returns the looked-up Boolean together with
the map contents it leaves behind.  `enforceAlwaysEnabledRules` above is the
only function of the repository that deletes from the map, and it is modelled
as returning the updated contents. -/

/-- Go map read `_, found := m[k]`: yields the lookup result and the map contents. -/
def mapLookup (m : List Str) (k : Str) : Bool × List Str := (decide (k ∈ m), m)

/-- `ruleEnabled` with the map threaded through the read. -/
def ruleEnabledSt (d : Option (List Str)) (rule : Str) : Bool × Option (List Str) :=
  match d with
  | none => (true, none)
  | some m =>
    let (found, m') := mapLookup m rule
    (!found, some m')

/-- `addIssue` of `AnalyzeSQLWithOptions` with the map threaded through. -/
def addIssueSt (d : Option (List Str)) (issues : List Issue) (i : Issue) :
    List Issue × Option (List Str) :=
  let (en, d') := ruleEnabledSt d i.rule
  (if en then issues ++ [i] else issues, d')

/-- Sequence of `addIssue` calls over the generated issues. -/
def addAllSt (d : Option (List Str)) (issues : List Issue) :
    List Issue → List Issue × Option (List Str)
  | [] => (issues, d)
  | i :: rest =>
    let (is2, d2) := addIssueSt d issues i
    addAllSt d2 is2 rest

/-- Loop of `filterDisabledRules` with the map threaded through each read. -/
def filterIssuesSt (m : List Str) : List Issue → List Issue × List Str
  | [] => ([], m)
  | i :: rest =>
    let (found, m1) := mapLookup m i.rule
    let (keep, m2) := filterIssuesSt m1 rest
    (if found then keep else i :: keep, m2)

/-- `filterDisabledRules` with the map threaded through. -/
def filterDisabledRulesSt (result : CheckResponse) (o : AnalyzeOptions) :
    CheckResponse × AnalyzeOptions :=
  match o.disabledRules with
  | none => (result, o)
  | some m =>
    if m.isEmpty || result.issues.isEmpty then (result, o)
    else
      let (fi, m') := filterIssuesSt m result.issues
      ({ result with issues := fi }, ⟨some m'⟩)

/-- `AnalyzeSQLWithOptions` with the disabled-rule map threaded through. -/
def analyzeSQLWithOptionsSt (content : Str) (o : AnalyzeOptions) (now : Str) :
    CheckResponse × AnalyzeOptions :=
  if (goTrimSpace content).isEmpty then
    let (en, d') := ruleEnabledSt o.disabledRules (str "empty_input")
    ({ rulesVersion := str "v1.3", checkedAt := now
       summary := ⟨0, 1, 0, 0⟩
       issues := if en then [sqlEmptyInputIssue] else []
       advice := [str "请输入待审核 SQL 后重试"] }, ⟨d'⟩)
  else
    let (kept, d') := addAllSt o.disabledRules [] (mysqlPreIssues content)
    let issues := sortIssues kept
    let summary := summarizeIssues (splitSQLStatements content).length issues
    ({ rulesVersion := str "v1.3", checkedAt := now, summary := summary, issues := issues
       advice := buildAdvice summary ++
         (if reRoutineDefinition content then
           [str "检测到存储过程/函数定义，建议补充过程权限控制、异常处理与审计日志检查"] else []) },
     ⟨d'⟩)

/-- `AnalyzePostgresWithOptions` with the disabled-rule map threaded through. -/
def analyzePostgresWithOptionsSt (content : Str) (o : AnalyzeOptions) (now : Str) :
    CheckResponse × AnalyzeOptions :=
  if (goTrimSpace content).isEmpty then
    filterDisabledRulesSt
      { rulesVersion := str "pg-v0.1", checkedAt := now
        summary := summarizeIssues 0 [sqlEmptyInputIssue]
        issues := [sqlEmptyInputIssue]
        advice := [str "请输入待审核 SQL 后重试"] } o
  else
    let (filtered, o') :=
      filterDisabledRulesSt
        { rulesVersion := str "pg-v0.1", checkedAt := now, summary := ⟨0, 0, 0, 0⟩
          issues := sortIssues (pgPreIssues content), advice := [] } o
    let summary := summarizeIssues (splitSQLStatements content).length filtered.issues
    ({ rulesVersion := str "pg-v0.1", checkedAt := now, summary := summary
       issues := filtered.issues, advice := buildAdvice summary }, o')

/-- `AnalyzeMongoWithOptions` with the disabled-rule map threaded through. -/
def analyzeMongoWithOptionsSt (content : Str) (o : AnalyzeOptions) (now : Str) :
    CheckResponse × AnalyzeOptions :=
  if (goTrimSpace content).isEmpty then
    filterDisabledRulesSt
      { rulesVersion := str "mongo-v0.1", checkedAt := now
        summary := summarizeIssues 0 [mongoEmptyInputIssue]
        issues := [mongoEmptyInputIssue]
        advice := [str "请输入待审核脚本后重试"] } o
  else
    let (filtered, o') :=
      filterDisabledRulesSt
        { rulesVersion := str "mongo-v0.1", checkedAt := now, summary := ⟨0, 0, 0, 0⟩
          issues := sortIssues (mongoPreIssues content), advice := [] } o
    let summary := summarizeIssues (parseMongoOperations content).length filtered.issues
    ({ rulesVersion := str "mongo-v0.1", checkedAt := now, summary := summary
       issues := filtered.issues, advice := buildAdvice summary }, o')

/-- `AnalyzeByEngine` with the disabled-rule map threaded through. -/
def analyzeByEngineSt (engine : DBEngine) (content : Str) (o : AnalyzeOptions) (now : Str) :
    CheckResponse × AnalyzeOptions :=
  match normalizeEngine (engineString engine) with
  | .postgresql => analyzePostgresWithOptionsSt content o now
  | .mongodb => analyzeMongoWithOptionsSt content o now
  | .mysql => analyzeSQLWithOptionsSt content o now

/-- The list handed to `sort.SliceStable` on the non-empty path of each engine
(in its generation order): for MySQL it is the disabled-rule-filtered issue
list (MySQL filters before sorting); PostgreSQL and MongoDB sort the raw
generation-order list and filter afterwards. -/
def sortInput : DBEngine → Str → AnalyzeOptions → List Issue
  | .mysql, c, o => (mysqlPreIssues c).filter (fun i => ruleEnabledB o i.rule)
  | .postgresql, c, _ => pgPreIssues c
  | .mongodb, c, _ => mongoPreIssues c

/- ## Basic lemmas -/

theorem mem_optIssue {x i : Issue} {c : Bool} : x ∈ optIssue c i ↔ c = true ∧ x = i := by
  unfold optIssue
  split <;> simp_all

theorem summarize_statementCount (n : Nat) (l : List Issue) :
    (summarizeIssues n l).statementCount = n := rfl

theorem summarize_sum (n : Nat) (l : List Issue) :
    (summarizeIssues n l).errorCount + (summarizeIssues n l).warningCount +
      (summarizeIssues n l).infoCount = l.length := by
  simp only [summarizeIssues]
  induction l with
  | nil => simp
  | cons a t ih =>
    simp only [List.countP_cons, List.length_cons]
    cases a.level <;> simp_all <;> omega

theorem mem_sortIssues {x : Issue} {l : List Issue} : x ∈ sortIssues l ↔ x ∈ l :=
  (List.perm_insertionSort leIssueR l).mem_iff

theorem ltIssue_iff (a b : Issue) :
    ltIssue a b = true ↔
      (a.statementIndex < b.statementIndex ∨
        (a.statementIndex = b.statementIndex ∧
          severityWeight b.level < severityWeight a.level)) := by
  unfold ltIssue
  split <;> simp_all

theorem leIssueB_total (a b : Issue) : leIssueB a b || leIssueB b a := by
  simp only [leIssueB, Bool.or_eq_true, Bool.not_eq_true']
  cases h1 : ltIssue b a
  · exact Or.inl rfl
  · cases h2 : ltIssue a b
    · exact Or.inr rfl
    · rw [ltIssue_iff] at h1 h2
      omega

theorem leIssueB_trans (a b c : Issue) (h1 : leIssueB a b) (h2 : leIssueB b c) :
    leIssueB a c := by
  simp only [leIssueB, Bool.not_eq_true'] at *
  cases h3 : ltIssue c a
  · rfl
  · exfalso
    have k1 : ¬ (ltIssue b a = true) := by simp [h1]
    have k2 : ¬ (ltIssue c b = true) := by simp [h2]
    rw [ltIssue_iff] at k1 k2
    rw [ltIssue_iff] at h3
    omega

instance : IsTotal Issue leIssueR :=
  ⟨fun a b => by
    have h := leIssueB_total a b
    simp only [Bool.or_eq_true] at h
    exact h⟩

instance : IsTrans Issue leIssueR := ⟨fun a b c => leIssueB_trans a b c⟩

theorem sortIssues_sorted (l : List Issue) :
    (sortIssues l).Pairwise (fun a b => leIssueB a b = true) :=
  List.sorted_insertionSort leIssueR l

theorem sortIssues_stable {a b : Issue} {l : List Issue}
    (hidx : a.statementIndex = b.statementIndex) (hlvl : a.level = b.level)
    (hsub : List.Sublist [a, b] l) : List.Sublist [a, b] (sortIssues l) := by
  refine List.pair_sublist_insertionSort ?_ hsub
  show leIssueB a b = true
  simp only [leIssueB, Bool.not_eq_true']
  cases h : ltIssue b a
  · rfl
  · rw [ltIssue_iff] at h
    rw [hidx, hlvl] at h
    omega

theorem filterDR_summary (r : CheckResponse) (o : AnalyzeOptions) :
    (filterDisabledRules r o).summary = r.summary := by
  obtain ⟨d⟩ := o
  cases d with
  | none => rfl
  | some m =>
    simp only [filterDisabledRules]
    split <;> rfl

theorem filterDR_issues_mem {x : Issue} {r : CheckResponse} {o : AnalyzeOptions}
    (h : x ∈ (filterDisabledRules r o).issues) : x ∈ r.issues := by
  obtain ⟨d⟩ := o
  cases d with
  | none => exact h
  | some m =>
    simp only [filterDisabledRules] at h
    split at h
    · exact h
    · exact (List.mem_filter.mp h).1

theorem filterDR_sorted {r : CheckResponse} {o : AnalyzeOptions}
    (h : r.issues.Pairwise (fun a b => leIssueB a b = true)) :
    (filterDisabledRules r o).issues.Pairwise (fun a b => leIssueB a b = true) := by
  obtain ⟨d⟩ := o
  cases d with
  | none => exact h
  | some m =>
    simp only [filterDisabledRules]
    split
    · exact h
    · exact h.sublist (List.filter_sublist r.issues)

theorem filterDR_single {i : Issue} {r : CheckResponse} {o : AnalyzeOptions}
    (hi : r.issues = [i]) (hen : ruleEnabledB o i.rule = true) :
    (filterDisabledRules r o).issues = [i] := by
  obtain ⟨d⟩ := o
  cases d with
  | none => exact hi
  | some m =>
    simp only [ruleEnabledB] at hen
    simp only [filterDisabledRules]
    split
    · exact hi
    · simp [hi, List.filter, hen]

theorem filterDR_issues_congr {r1 r2 : CheckResponse} {o : AnalyzeOptions}
    (h : r1.issues = r2.issues) :
    (filterDisabledRules r1 o).issues = (filterDisabledRules r2 o).issues := by
  obtain ⟨d⟩ := o
  cases d with
  | none => exact h
  | some m =>
    simp only [filterDisabledRules, h]
    split <;> simp [h]

/- ## The state-threading view refines the pure analyzers -/

theorem ruleEnabledSt_eq (d : Option (List Str)) (rule : Str) :
    ruleEnabledSt d rule = (ruleEnabledB ⟨d⟩ rule, d) := by
  cases d <;> rfl

theorem addAllSt_eq (l : List Issue) (d : Option (List Str)) (acc : List Issue) :
    addAllSt d acc l = (acc ++ l.filter (fun i => ruleEnabledB ⟨d⟩ i.rule), d) := by
  induction l generalizing acc with
  | nil => simp [addAllSt]
  | cons i rest ih =>
    simp only [addAllSt, addIssueSt, ruleEnabledSt_eq]
    cases h : ruleEnabledB ⟨d⟩ i.rule <;>
      simp [List.filter_cons, h, ih, List.append_assoc]

theorem filterIssuesSt_eq (m : List Str) (l : List Issue) :
    filterIssuesSt m l = (l.filter (fun i => !decide (i.rule ∈ m)), m) := by
  induction l with
  | nil => rfl
  | cons i rest ih =>
    simp only [filterIssuesSt, mapLookup, ih, List.filter_cons]
    cases h : decide (i.rule ∈ m) <;> simp [h]

theorem filterDisabledRulesSt_eq (r : CheckResponse) (o : AnalyzeOptions) :
    filterDisabledRulesSt r o = (filterDisabledRules r o, o) := by
  obtain ⟨d⟩ := o
  cases d with
  | none => rfl
  | some m =>
    simp only [filterDisabledRulesSt, filterDisabledRules]
    split
    · rfl
    · simp [filterIssuesSt_eq]

theorem analyzeSQLWithOptionsSt_eq (c : Str) (o : AnalyzeOptions) (now : Str) :
    analyzeSQLWithOptionsSt c o now = (analyzeSQLWithOptions c o now, o) := by
  obtain ⟨d⟩ := o
  simp only [analyzeSQLWithOptionsSt, analyzeSQLWithOptions, mysqlFinalIssues]
  split
  · simp [ruleEnabledSt_eq]
  · simp [addAllSt_eq]

theorem analyzePostgresWithOptionsSt_eq (c : Str) (o : AnalyzeOptions) (now : Str) :
    analyzePostgresWithOptionsSt c o now = (analyzePostgresWithOptions c o now, o) := by
  simp only [analyzePostgresWithOptionsSt, analyzePostgresWithOptions]
  split <;> simp [filterDisabledRulesSt_eq]

theorem analyzeMongoWithOptionsSt_eq (c : Str) (o : AnalyzeOptions) (now : Str) :
    analyzeMongoWithOptionsSt c o now = (analyzeMongoWithOptions c o now, o) := by
  simp only [analyzeMongoWithOptionsSt, analyzeMongoWithOptions]
  split <;> simp [filterDisabledRulesSt_eq]

theorem analyzeByEngine_mysql (c : Str) (o : AnalyzeOptions) (now : Str) :
    analyzeByEngine .mysql c o now = analyzeSQLWithOptions c o now := rfl

theorem analyzeByEngine_postgresql (c : Str) (o : AnalyzeOptions) (now : Str) :
    analyzeByEngine .postgresql c o now = analyzePostgresWithOptions c o now := rfl

theorem analyzeByEngine_mongodb (c : Str) (o : AnalyzeOptions) (now : Str) :
    analyzeByEngine .mongodb c o now = analyzeMongoWithOptions c o now := rfl

/- ## Structural facts about the generated issues -/

theorem mem_mysqlChecks {x : Issue} {idx : Nat} {stmt : Str} (h : x ∈ mysqlChecks idx stmt) :
    x.statementIndex = idx ∧ x.rule ≠ str "missing_statement_terminator" ∧
      x.rule ≠ str "fullwidth_statement_terminator" := by
  simp only [mysqlChecks, List.mem_append, mem_optIssue, or_assoc] at h
  rcases h with h | h | h | h | h | h | h | h | h | h | h | h | h <;> rw [h.2] <;>
    refine ⟨rfl, ?_, ?_⟩ <;> dsimp only <;> decide

theorem mem_pgChecks {x : Issue} {idx : Nat} {stmt : Str} (h : x ∈ pgChecks idx stmt) :
    x.statementIndex = idx ∧ x.rule ≠ str "missing_statement_terminator" ∧
      x.rule ≠ str "fullwidth_statement_terminator" := by
  simp only [pgChecks, List.mem_append, mem_optIssue, or_assoc] at h
  rcases h with h | h | h | h | h | h | h | h <;> rw [h.2] <;>
    refine ⟨rfl, ?_, ?_⟩ <;> dsimp only <;> decide

theorem mem_mongoChecks {x : Issue} {idx : Nat} {op : MongoOperation}
    (h : x ∈ mongoChecks idx op) : x.statementIndex = idx := by
  simp only [mongoChecks] at h
  split at h
  · simp at h
  · simp only [List.mem_append, mem_optIssue, or_assoc] at h
    rcases h with h | h | h | h | h <;> rw [h.2]

theorem mem_mysqlStatementIssues {x : Issue} {l : List Str} :
    ∀ {n : Nat}, x ∈ mysqlStatementIssues n l →
      (n + 1 ≤ x.statementIndex ∧ x.statementIndex ≤ n + l.length) ∧
        x.rule ≠ str "missing_statement_terminator" ∧
        x.rule ≠ str "fullwidth_statement_terminator" := by
  induction l with
  | nil => intro n h; simp [mysqlStatementIssues] at h
  | cons st rest ih =>
    intro n h
    simp only [mysqlStatementIssues, List.mem_append] at h
    rcases h with h | h
    · split at h
      · simp at h
      · obtain ⟨hidx, hr⟩ := mem_mysqlChecks h
        refine ⟨⟨by omega, ?_⟩, hr⟩
        simp only [List.length_cons]
        omega
    · obtain ⟨⟨h1, h2⟩, hr⟩ := ih h
      refine ⟨⟨by omega, ?_⟩, hr⟩
      simp only [List.length_cons]
      omega

theorem mem_pgStatementIssues {x : Issue} {l : List Str} :
    ∀ {n : Nat}, x ∈ pgStatementIssues n l →
      (n + 1 ≤ x.statementIndex ∧ x.statementIndex ≤ n + l.length) ∧
        x.rule ≠ str "missing_statement_terminator" ∧
        x.rule ≠ str "fullwidth_statement_terminator" := by
  induction l with
  | nil => intro n h; simp [pgStatementIssues] at h
  | cons st rest ih =>
    intro n h
    simp only [pgStatementIssues, List.mem_append] at h
    rcases h with h | h
    · split at h
      · simp at h
      · obtain ⟨hidx, hr⟩ := mem_pgChecks h
        refine ⟨⟨by omega, ?_⟩, hr⟩
        simp only [List.length_cons]
        omega
    · obtain ⟨⟨h1, h2⟩, hr⟩ := ih h
      refine ⟨⟨by omega, ?_⟩, hr⟩
      simp only [List.length_cons]
      omega

theorem mem_mongoStatementIssues {x : Issue} {l : List MongoOperation} :
    ∀ {n : Nat}, x ∈ mongoStatementIssues n l →
      n + 1 ≤ x.statementIndex ∧ x.statementIndex ≤ n + l.length := by
  induction l with
  | nil => intro n h; simp [mongoStatementIssues] at h
  | cons op rest ih =>
    intro n h
    simp only [mongoStatementIssues, List.mem_append] at h
    rcases h with h | h
    · have hidx := mem_mongoChecks h
      refine ⟨by omega, ?_⟩
      simp only [List.length_cons]
      omega
    · obtain ⟨h1, h2⟩ := ih h
      refine ⟨by omega, ?_⟩
      simp only [List.length_cons]
      omega

theorem mem_collectHeuristicItems {x : MissingTS} {p : SqlHeuristicStatement → Bool}
    {l : List SqlHeuristicStatement} :
    ∀ {n : Nat}, x ∈ collectHeuristicItems p n l →
      n + 1 ≤ x.index ∧ x.index ≤ n + l.length := by
  induction l with
  | nil => intro n h; simp [collectHeuristicItems] at h
  | cons s rest ih =>
    intro n h
    simp only [collectHeuristicItems, List.mem_append] at h
    rcases h with h | h
    · split at h
      · split at h
        · simp at h
        · simp only [List.mem_singleton] at h
          subst h
          simp only [List.length_cons]
          omega
      · simp at h
    · obtain ⟨h1, h2⟩ := ih h
      simp only [List.length_cons]
      omega

theorem mem_mongoItems {x : MissingTS} {p : MongoOperation → Bool} {l : List MongoOperation} :
    ∀ {n : Nat}, x ∈ mongoItems p n l →
      ∃ j, ∃ hj : j < l.length, x.index = n + 1 + j ∧ p (l.get ⟨j, hj⟩) = true := by
  induction l with
  | nil => intro n h; simp [mongoItems] at h
  | cons op rest ih =>
    intro n h
    simp only [mongoItems, List.mem_append] at h
    rcases h with h | h
    · split at h
      · split at h
        · simp at h
        · simp only [List.mem_singleton] at h
          subst h
          rename_i hp _
          exact ⟨0, by simp, by simp, hp⟩
      · simp at h
    · obtain ⟨j, hj, hidx, hp⟩ := ih h
      exact ⟨j + 1, by simp only [List.length_cons]; omega, by omega, hp⟩

theorem mem_excludeMissing_subset {x : MissingTS} {m e : List MissingTS}
    (h : x ∈ excludeMissingTerminatorStatements m e) : x ∈ m := by
  unfold excludeMissingTerminatorStatements at h
  split at h
  · exact h
  · exact (List.mem_filter.mp h).1

theorem mem_excludeMissing_disjoint {x y : MissingTS} {m e : List MissingTS}
    (h : x ∈ excludeMissingTerminatorStatements m e) (hy : y ∈ e) : x.index ≠ y.index := by
  unfold excludeMissingTerminatorStatements at h
  split at h
  · rename_i hcond
    simp only [Bool.or_eq_true, List.isEmpty_iff] at hcond
    rcases hcond with hm | he
    · subst hm; simp at h
    · subst he; simp at hy
  · have hp := (List.mem_filter.mp h).2
    simp only [Bool.not_eq_true', List.any_eq_false] at hp
    intro hEq
    have := hp y hy
    simp [hEq] at this

theorem mem_detectMissing {x : MissingTS} {content : Str} {statements : List Str} {r : Bool}
    (h : x ∈ detectMissingTerminatorStatements content statements r) :
    (1 ≤ x.index ∧ x.index ≤ (splitSQLByLineStartHeuristicDetailed content).length) ∨
      (1 ≤ x.index ∧ x.index = statements.length) := by
  simp only [detectMissingTerminatorStatements] at h
  split at h
  · simp at h
  split at h
  · simp at h
  split at h
  · simp at h
  split at h
  · split at h
    · simp at h
    · obtain ⟨h1, h2⟩ := mem_collectHeuristicItems h
      exact Or.inl ⟨by omega, by omega⟩
  split at h
  · rename_i hguard
    split at h
    · split at h
      · simp at h
      · simp only [List.mem_singleton] at h
        subst h
        simp only [Bool.and_eq_true, decide_eq_true_eq] at hguard
        exact Or.inr ⟨hguard.1, rfl⟩
    · simp at h
  · simp at h

theorem mem_detectFullwidth {x : MissingTS} {content : Str} {r : Bool}
    (h : x ∈ detectFullwidthTerminatorStatements content r) :
    1 ≤ x.index ∧ x.index ≤ (splitSQLByLineStartHeuristicDetailed content).length := by
  simp only [detectFullwidthTerminatorStatements] at h
  split at h
  · simp at h
  · split at h
    · simp at h
    · obtain ⟨h1, h2⟩ := mem_collectHeuristicItems h
      exact ⟨by omega, by omega⟩

theorem headD_mem {α : Type} {l : List α} {d : α} (h : l ≠ []) : l.headD d ∈ l := by
  cases l with
  | nil => exact absurd rfl h
  | cons a t => exact List.mem_cons_self a t

theorem mem_mysqlPreIssues {x : Issue} {c : Str} (h : x ∈ mysqlPreIssues c) :
    x.statementIndex = 0 ∨
      (1 ≤ x.statementIndex ∧ x.statementIndex ≤ (splitSQLStatements c).length) ∨
      ((x.rule = str "missing_statement_terminator" ∨
          x.rule = str "fullwidth_statement_terminator") ∧
        1 ≤ x.statementIndex ∧
        x.statementIndex ≤ (splitSQLByLineStartHeuristicDetailed c).length) := by
  simp only [mysqlPreIssues, List.mem_append, mem_optIssue, or_assoc] at h
  rcases h with ⟨hc, rfl⟩ | ⟨hc, rfl⟩ | ⟨hc, rfl⟩ | ⟨hc, rfl⟩ | h | ⟨hc, rfl⟩
  · exact Or.inl rfl
  · have hne : detectFullwidthTerminatorStatements c (reRoutineDefinition c) ≠ [] := by
      simpa [List.isEmpty_iff] using hc
    obtain ⟨h1, h2⟩ := mem_detectFullwidth (headD_mem hne (d := ⟨0, []⟩))
    exact Or.inr (Or.inr ⟨Or.inr rfl, h1, h2⟩)
  · have hne :
        excludeMissingTerminatorStatements
          (detectMissingTerminatorStatements c (splitSQLStatements c) (reRoutineDefinition c))
          (detectFullwidthTerminatorStatements c (reRoutineDefinition c)) ≠ [] := by
      simpa [List.isEmpty_iff] using hc
    have hmem := mem_excludeMissing_subset (headD_mem hne (d := ⟨0, []⟩))
    rcases mem_detectMissing hmem with ⟨h1, h2⟩ | ⟨h1, h2⟩
    · exact Or.inr (Or.inr ⟨Or.inl rfl, h1, h2⟩)
    · exact Or.inr (Or.inl ⟨h1, le_of_eq h2⟩)
  · exact Or.inl rfl
  · obtain ⟨⟨h1, h2⟩, -⟩ := mem_mysqlStatementIssues h
    exact Or.inr (Or.inl ⟨by omega, by omega⟩)
  · exact Or.inl rfl

theorem mem_pgPreIssues {x : Issue} {c : Str} (h : x ∈ pgPreIssues c) :
    x.statementIndex = 0 ∨
      (1 ≤ x.statementIndex ∧ x.statementIndex ≤ (splitSQLStatements c).length) ∨
      ((x.rule = str "missing_statement_terminator" ∨
          x.rule = str "fullwidth_statement_terminator") ∧
        1 ≤ x.statementIndex ∧
        x.statementIndex ≤ (splitSQLByLineStartHeuristicDetailed c).length) := by
  simp only [pgPreIssues, List.mem_append, mem_optIssue, or_assoc] at h
  rcases h with ⟨hc, rfl⟩ | ⟨hc, rfl⟩ | ⟨hc, rfl⟩ | h | ⟨hc, rfl⟩
  · have hne : detectFullwidthTerminatorStatements c false ≠ [] := by
      simpa [List.isEmpty_iff] using hc
    obtain ⟨h1, h2⟩ := mem_detectFullwidth (headD_mem hne (d := ⟨0, []⟩))
    exact Or.inr (Or.inr ⟨Or.inr rfl, h1, h2⟩)
  · have hne :
        excludeMissingTerminatorStatements
          (detectMissingTerminatorStatements c (splitSQLStatements c) false)
          (detectFullwidthTerminatorStatements c false) ≠ [] := by
      simpa [List.isEmpty_iff] using hc
    have hmem := mem_excludeMissing_subset (headD_mem hne (d := ⟨0, []⟩))
    rcases mem_detectMissing hmem with ⟨h1, h2⟩ | ⟨h1, h2⟩
    · exact Or.inr (Or.inr ⟨Or.inl rfl, h1, h2⟩)
    · exact Or.inr (Or.inl ⟨h1, le_of_eq h2⟩)
  · exact Or.inl rfl
  · obtain ⟨⟨h1, h2⟩, -⟩ := mem_pgStatementIssues h
    exact Or.inr (Or.inl ⟨by omega, by omega⟩)
  · exact Or.inl rfl

theorem mem_mongoPreIssues {x : Issue} {c : Str} (h : x ∈ mongoPreIssues c) :
    x.statementIndex = 0 ∨
      (1 ≤ x.statementIndex ∧ x.statementIndex ≤ (parseMongoOperations c).length) := by
  simp only [mongoPreIssues, List.mem_append, mem_optIssue, or_assoc] at h
  rcases h with ⟨hc, rfl⟩ | ⟨hc, rfl⟩ | h
  · have hne : mongoItems (fun op => op.fullwidthTerminator) 0 (parseMongoOperations c) ≠ [] := by
      simpa [List.isEmpty_iff] using hc
    obtain ⟨j, hj, hidx, -⟩ := mem_mongoItems (headD_mem hne (d := ⟨0, []⟩))
    refine Or.inr ⟨?_, ?_⟩ <;> dsimp only <;> omega
  · have hne : mongoItems (fun op => !op.terminated) 0 (parseMongoOperations c) ≠ [] := by
      simp only [Bool.and_eq_true, Bool.not_eq_true', List.isEmpty_eq_false] at hc
      exact hc.2
    obtain ⟨j, hj, hidx, -⟩ := mem_mongoItems (headD_mem hne (d := ⟨0, []⟩))
    refine Or.inr ⟨?_, ?_⟩ <;> dsimp only <;> omega
  · obtain ⟨h1, h2⟩ := mem_mongoStatementIssues h
    exact Or.inr ⟨by omega, by omega⟩

theorem detectMissing_nil_of {content : Str} {statements : List Str} {r : Bool}
    (hr : r = true ∨
      chContains (goToUpper (goTrimSpace (stripCommentsAndStrings content)))
        (str "DELIMITER ") = true) :
    detectMissingTerminatorStatements content statements r = [] := by
  rcases hr with hr | hc
  · simp [detectMissingTerminatorStatements, hr]
  · simp only [detectMissingTerminatorStatements]
    split
    · rfl
    · split
      · rfl
      · simp [hc]

theorem excludeMissing_nil (e : List MissingTS) :
    excludeMissingTerminatorStatements [] e = [] := by
  simp [excludeMissingTerminatorStatements]

theorem mysqlPre_no_missing {c : Str}
    (hcond : chContains (goToUpper (goTrimSpace (stripCommentsAndStrings c)))
        (str "DELIMITER ") = true ∨ reRoutineDefinition c = true) :
    ∀ x ∈ mysqlPreIssues c, x.rule ≠ str "missing_statement_terminator" := by
  intro x h
  have hdm : detectMissingTerminatorStatements c (splitSQLStatements c)
      (reRoutineDefinition c) = [] := by
    rcases hcond with hc | hr
    · exact detectMissing_nil_of (Or.inr hc)
    · exact detectMissing_nil_of (Or.inl hr)
  simp only [mysqlPreIssues, List.mem_append, mem_optIssue, or_assoc] at h
  rcases h with ⟨hc, rfl⟩ | ⟨hc, rfl⟩ | ⟨hc, rfl⟩ | ⟨hc, rfl⟩ | h | ⟨hc, rfl⟩
  · dsimp only; decide
  · dsimp only; decide
  · rw [hdm, excludeMissing_nil] at hc
    simp at hc
  · dsimp only; decide
  · exact (mem_mysqlStatementIssues h).2.1
  · dsimp only; decide

theorem pgPre_no_missing {c : Str}
    (hcond : chContains (goToUpper (goTrimSpace (stripCommentsAndStrings c)))
        (str "DELIMITER ") = true) :
    ∀ x ∈ pgPreIssues c, x.rule ≠ str "missing_statement_terminator" := by
  intro x h
  have hdm : detectMissingTerminatorStatements c (splitSQLStatements c) false = [] :=
    detectMissing_nil_of (Or.inr hcond)
  simp only [pgPreIssues, List.mem_append, mem_optIssue, or_assoc] at h
  rcases h with ⟨hc, rfl⟩ | ⟨hc, rfl⟩ | ⟨hc, rfl⟩ | h | ⟨hc, rfl⟩
  · dsimp only; decide
  · rw [hdm, excludeMissing_nil] at hc
    simp at hc
  · dsimp only; decide
  · exact (mem_pgStatementIssues h).2.1
  · dsimp only; decide

/- ## A full-width-terminated Mongo operation is always terminated -/

theorem mongoFlush_inv {P : MongoOperation → Prop} {items : List MongoOperation} {b : Str}
    {term fw : Bool} (hitems : ∀ op ∈ items, P op) (hnew : ∀ t, P ⟨t, term, fw⟩) :
    ∀ op ∈ mongoFlush items b term fw, P op := by
  intro op hop
  unfold mongoFlush at hop
  dsimp only at hop
  split at hop
  · exact hitems op hop
  · rcases List.mem_append.mp hop with h | h
    · exact hitems op h
    · simp only [List.mem_singleton] at h
      subst h
      exact hnew _

set_option maxHeartbeats 2000000 in
theorem parseMongoAux_fw_terminated (fuel : Nat) (items : List MongoOperation) (b : Str)
    (inS inD inB inLC inBC : Bool) (pd bd kd : Nat) (esc : Bool) (s : Str)
    (hinv : ∀ op ∈ items, op.fullwidthTerminator = true → op.terminated = true) :
    ∀ op ∈ parseMongoAux fuel items b inS inD inB inLC inBC pd bd kd esc s,
      op.fullwidthTerminator = true → op.terminated = true := by
  revert hinv
  induction fuel, items, b, inS, inD, inB, inLC, inBC, pd, bd, kd, esc, s using parseMongoAux.induct
  all_goals try rename_i ih
  all_goals intro hinv op hop
  all_goals simp only [parseMongoAux] at hop
  all_goals try simp only [*, Bool.false_eq_true, Bool.true_eq_false, if_true, if_false,
    eq_self_iff_true, not_false_iff, not_true] at hop
  all_goals try simp only [*, Bool.false_eq_true, Bool.true_eq_false, if_true, if_false,
    eq_self_iff_true, not_false_iff, not_true] at ih
  all_goals
    first
    | exact mongoFlush_inv hinv (by simp) op hop
    | exact ih (mongoFlush_inv hinv (by simp)) op hop
    | exact ih hinv op hop

theorem parseMongo_fw_terminated {content : Str} :
    ∀ op ∈ parseMongoOperations content,
      op.fullwidthTerminator = true → op.terminated = true := by
  unfold parseMongoOperations
  exact parseMongoAux_fw_terminated (replCRLF content).length [] [] false false false false false
    0 0 0 false (replCRLF content) (by simp)

/- ## Branch equations of the analyzers -/

theorem analyzeSQL_empty (c : Str) (o : AnalyzeOptions) (now : Str)
    (hq : (goTrimSpace c).isEmpty = true) :
    analyzeSQLWithOptions c o now =
      { rulesVersion := str "v1.3", checkedAt := now
        summary := ⟨0, 1, 0, 0⟩
        issues := if ruleEnabledB o (str "empty_input") then [sqlEmptyInputIssue] else []
        advice := [str "请输入待审核 SQL 后重试"] } := by
  unfold analyzeSQLWithOptions
  rw [if_pos hq]

theorem analyzeSQL_nonempty (c : Str) (o : AnalyzeOptions) (now : Str)
    (hq : ¬(goTrimSpace c).isEmpty = true) :
    analyzeSQLWithOptions c o now =
      { rulesVersion := str "v1.3", checkedAt := now
        summary := summarizeIssues (splitSQLStatements c).length (mysqlFinalIssues c o)
        issues := mysqlFinalIssues c o
        advice :=
          buildAdvice (summarizeIssues (splitSQLStatements c).length (mysqlFinalIssues c o)) ++
            (if reRoutineDefinition c then
              [str "检测到存储过程/函数定义，建议补充过程权限控制、异常处理与审计日志检查"] else []) } := by
  unfold analyzeSQLWithOptions
  rw [if_neg hq]

theorem analyzePG_empty (c : Str) (o : AnalyzeOptions) (now : Str)
    (hq : (goTrimSpace c).isEmpty = true) :
    analyzePostgresWithOptions c o now =
      filterDisabledRules
        { rulesVersion := str "pg-v0.1", checkedAt := now
          summary := summarizeIssues 0 [sqlEmptyInputIssue]
          issues := [sqlEmptyInputIssue]
          advice := [str "请输入待审核 SQL 后重试"] } o := by
  unfold analyzePostgresWithOptions
  rw [if_pos hq]

theorem analyzePG_nonempty (c : Str) (o : AnalyzeOptions) (now : Str)
    (hq : ¬(goTrimSpace c).isEmpty = true) :
    analyzePostgresWithOptions c o now =
      { rulesVersion := str "pg-v0.1", checkedAt := now
        summary := summarizeIssues (splitSQLStatements c).length
          (filterDisabledRules
            { rulesVersion := str "pg-v0.1", checkedAt := now, summary := ⟨0, 0, 0, 0⟩
              issues := sortIssues (pgPreIssues c), advice := [] } o).issues
        issues := (filterDisabledRules
          { rulesVersion := str "pg-v0.1", checkedAt := now, summary := ⟨0, 0, 0, 0⟩
            issues := sortIssues (pgPreIssues c), advice := [] } o).issues
        advice := buildAdvice (summarizeIssues (splitSQLStatements c).length
          (filterDisabledRules
            { rulesVersion := str "pg-v0.1", checkedAt := now, summary := ⟨0, 0, 0, 0⟩
              issues := sortIssues (pgPreIssues c), advice := [] } o).issues) } := by
  unfold analyzePostgresWithOptions
  rw [if_neg hq]

theorem analyzeMongo_empty (c : Str) (o : AnalyzeOptions) (now : Str)
    (hq : (goTrimSpace c).isEmpty = true) :
    analyzeMongoWithOptions c o now =
      filterDisabledRules
        { rulesVersion := str "mongo-v0.1", checkedAt := now
          summary := summarizeIssues 0 [mongoEmptyInputIssue]
          issues := [mongoEmptyInputIssue]
          advice := [str "请输入待审核脚本后重试"] } o := by
  unfold analyzeMongoWithOptions
  rw [if_pos hq]

theorem analyzeMongo_nonempty (c : Str) (o : AnalyzeOptions) (now : Str)
    (hq : ¬(goTrimSpace c).isEmpty = true) :
    analyzeMongoWithOptions c o now =
      { rulesVersion := str "mongo-v0.1", checkedAt := now
        summary := summarizeIssues (parseMongoOperations c).length
          (filterDisabledRules
            { rulesVersion := str "mongo-v0.1", checkedAt := now, summary := ⟨0, 0, 0, 0⟩
              issues := sortIssues (mongoPreIssues c), advice := [] } o).issues
        issues := (filterDisabledRules
          { rulesVersion := str "mongo-v0.1", checkedAt := now, summary := ⟨0, 0, 0, 0⟩
            issues := sortIssues (mongoPreIssues c), advice := [] } o).issues
        advice := buildAdvice (summarizeIssues (parseMongoOperations c).length
          (filterDisabledRules
            { rulesVersion := str "mongo-v0.1", checkedAt := now, summary := ⟨0, 0, 0, 0⟩
              issues := sortIssues (mongoPreIssues c), advice := [] } o).issues) } := by
  unfold analyzeMongoWithOptions
  rw [if_neg hq]

/-- Always-enabled codes never survive `enforceAlwaysEnabledRules` in the disabled set. -/
theorem enforce_no_always {d : List Str} {code : Str} (hc : code ∈ alwaysEnabledRules) :
    code ∉ (enforceAlwaysEnabledRules d).1 := by
  unfold enforceAlwaysEnabledRules
  split
  · rename_i h
    simp only [List.isEmpty_iff] at h
    subst h
    simp
  · intro hmem
    have h2 := (List.mem_filter.mp hmem).2
    simp [hc] at h2

/- ## Further helper lemmas -/

theorem mem_sortStrs {x : Str} {l : List Str} : x ∈ sortStrs l ↔ x ∈ l :=
  (List.perm_insertionSort leStrR l).mem_iff

theorem leIssueB_iff (a b : Issue) :
    leIssueB a b = true ↔
      (a.statementIndex < b.statementIndex ∨
        (a.statementIndex = b.statementIndex ∧
          severityWeight b.level ≤ severityWeight a.level)) := by
  simp only [leIssueB, Bool.not_eq_true', Bool.eq_false_iff, ne_eq, ltIssue_iff]
  omega

theorem filterDR_advice (r : CheckResponse) (o : AnalyzeOptions) :
    (filterDisabledRules r o).advice = r.advice := by
  obtain ⟨d⟩ := o
  cases d with
  | none => rfl
  | some m =>
    simp only [filterDisabledRules]
    split <;> rfl

/-- Two issues surviving the disabled-rule filter keep their relative order. -/
theorem filterDR_pair {a b : Issue} {r : CheckResponse} {o : AnalyzeOptions}
    (hena : ruleEnabledB o a.rule = true) (henb : ruleEnabledB o b.rule = true)
    (h : List.Sublist [a, b] r.issues) :
    List.Sublist [a, b] (filterDisabledRules r o).issues := by
  obtain ⟨d⟩ := o
  cases d with
  | none => exact h
  | some m =>
    simp only [ruleEnabledB] at hena henb
    simp only [filterDisabledRules]
    split
    · exact h
    · dsimp only
      have h2 := h.filter (fun i => !decide (i.rule ∈ m))
      have h3 : List.filter (fun i => !decide (i.rule ∈ m)) [a, b] = [a, b] := by
        simp [List.filter, hena, henb]
      rw [h3] at h2
      exact h2

/- ## Claims -/

/-- C1: every always-enabled rule code that the caller requested disabled is
removed from the disabled set by `enforceAlwaysEnabledRules` before evaluation
begins, is reported back as forced-enabled (the second component), and hence —
for every engine and script — never appears in the disabled portion of the
response (`disabledRulesToSlice` of the enforced set, which the handler attaches
to every response independently of engine and script). -/
theorem claim_C1 (d : List Str) (code : Str) (hc : code ∈ alwaysEnabledRules)
    (hd : code ∈ d) :
    code ∉ (enforceAlwaysEnabledRules d).1 ∧
    code ∈ (enforceAlwaysEnabledRules d).2 ∧
    code ∉ disabledRulesToSlice (enforceAlwaysEnabledRules d).1 := by
  have h1 := enforce_no_always (d := d) hc
  refine ⟨h1, ?_, ?_⟩
  · have hne : d.isEmpty = false := by
      cases d with
      | nil => cases hd
      | cons a t => rfl
    simp only [enforceAlwaysEnabledRules, hne, Bool.false_eq_true, if_false]
    exact mem_sortStrs.mpr (List.mem_filter.mpr ⟨hc, by simp [hd]⟩)
  · intro hmem
    exact h1 (mem_sortStrs.mp hmem)

/-- Witness for C1 at the concrete input `disabled = [empty_input, select_star]`,
`code = empty_input`. -/
theorem claim_C1_witness :
    str "empty_input" ∈ alwaysEnabledRules ∧
    str "empty_input" ∈ [str "empty_input", str "select_star"] ∧
    (str "empty_input" ∉
        (enforceAlwaysEnabledRules [str "empty_input", str "select_star"]).1 ∧
      str "empty_input" ∈
        (enforceAlwaysEnabledRules [str "empty_input", str "select_star"]).2 ∧
      str "empty_input" ∉
        disabledRulesToSlice
          (enforceAlwaysEnabledRules [str "empty_input", str "select_star"]).1) :=
  ⟨by decide, by decide,
    claim_C1 [str "empty_input", str "select_star"] (str "empty_input")
      (by decide) (by decide)⟩

/-- C2 counterexample: on the empty MySQL script with `empty_input` disabled,
the report's summary still counts one error while the issue list is empty, so
`errorCount + warningCount + infoCount = issues.length` fails (the Boolean
comparison evaluates to `false`) — the claimed invariant does not hold for
every engine, script and disabled-rule set. -/
theorem claim_C2_counterexample :
    ((analyzeByEngine .mysql [] ⟨some [str "empty_input"]⟩ []).summary.errorCount +
        (analyzeByEngine .mysql [] ⟨some [str "empty_input"]⟩ []).summary.warningCount +
        (analyzeByEngine .mysql [] ⟨some [str "empty_input"]⟩ []).summary.infoCount ==
        (analyzeByEngine .mysql [] ⟨some [str "empty_input"]⟩ []).issues.length) = false := by
  decide

/-- C2 amended: whenever the `empty_input` rule is not disabled (in particular
for every non-empty disabled-rule filtering of a non-blank script, and always
after `enforceAlwaysEnabledRules` has run), the summary counts of the returned
report sum to the length of its issue list, for every engine, script and
disabled-rule set. -/
theorem claim_C2_amended (e : DBEngine) (c : Str) (o : AnalyzeOptions) (now : Str)
    (hen : ruleEnabledB o (str "empty_input") = true) :
    (analyzeByEngine e c o now).summary.errorCount +
      (analyzeByEngine e c o now).summary.warningCount +
      (analyzeByEngine e c o now).summary.infoCount =
      (analyzeByEngine e c o now).issues.length := by
  cases e with
  | mysql =>
    rw [analyzeByEngine_mysql]
    by_cases hq : (goTrimSpace c).isEmpty = true
    · rw [analyzeSQL_empty c o now hq]
      simp [hen]
    · rw [analyzeSQL_nonempty c o now hq]
      exact summarize_sum _ _
  | postgresql =>
    rw [analyzeByEngine_postgresql]
    by_cases hq : (goTrimSpace c).isEmpty = true
    · rw [analyzePG_empty c o now hq]
      rw [filterDR_summary, filterDR_single rfl hen]
      dsimp only
      decide
    · rw [analyzePG_nonempty c o now hq]
      exact summarize_sum _ _
  | mongodb =>
    rw [analyzeByEngine_mongodb]
    by_cases hq : (goTrimSpace c).isEmpty = true
    · rw [analyzeMongo_empty c o now hq]
      rw [filterDR_summary, filterDR_single rfl hen]
      dsimp only
      decide
    · rw [analyzeMongo_nonempty c o now hq]
      exact summarize_sum _ _

/-- Witness for the amended C2 on the MySQL engine, script `SELECT 1;`, and an
empty (nil) disabled-rule set. -/
theorem claim_C2_amended_witness :
    ruleEnabledB ⟨none⟩ (str "empty_input") = true ∧
    (analyzeByEngine .mysql (str "SELECT 1;") ⟨none⟩ []).summary.errorCount +
      (analyzeByEngine .mysql (str "SELECT 1;") ⟨none⟩ []).summary.warningCount +
      (analyzeByEngine .mysql (str "SELECT 1;") ⟨none⟩ []).summary.infoCount =
      (analyzeByEngine .mysql (str "SELECT 1;") ⟨none⟩ []).issues.length :=
  ⟨rfl, claim_C2_amended .mysql (str "SELECT 1;") ⟨none⟩ [] rfl⟩

/-- C3 counterexample: on the MySQL script `SELECT a FROM t\nSELECT b FROM t；`
the delimiter-based segmentation yields one statement (`statementCount = 1`),
yet the report contains an issue (the full-width-terminator finding) whose
`statementIndex` is `2`, strictly greater than `summary.statementCount` — so
not every issue index is `0` or at most `summary.statementCount`. -/
theorem claim_C3_counterexample :
    ((analyzeByEngine .mysql (str "SELECT a FROM t\nSELECT b FROM t；")
        ⟨none⟩ []).issues.any
      (fun i => decide
        ((analyzeByEngine .mysql (str "SELECT a FROM t\nSELECT b FROM t；")
            ⟨none⟩ []).summary.statementCount < i.statementIndex))) = true := by
  decide

/-- C3 amended: every issue index in a report is `0`, or a valid 1-based index
into the statement sequence counted by `summary.statementCount`, or — for the
two terminator rules only — a valid 1-based index into the line-start heuristic
segmentation of the script (which is the sequence those rules index). -/
theorem claim_C3_amended (e : DBEngine) (c : Str) (o : AnalyzeOptions) (now : Str) :
    ∀ i ∈ (analyzeByEngine e c o now).issues,
      i.statementIndex = 0 ∨
      (1 ≤ i.statementIndex ∧
        i.statementIndex ≤ (analyzeByEngine e c o now).summary.statementCount) ∨
      ((i.rule = str "missing_statement_terminator" ∨
          i.rule = str "fullwidth_statement_terminator") ∧
        1 ≤ i.statementIndex ∧
        i.statementIndex ≤ (splitSQLByLineStartHeuristicDetailed c).length) := by
  intro i hi
  cases e with
  | mysql =>
    rw [analyzeByEngine_mysql] at hi ⊢
    by_cases hq : (goTrimSpace c).isEmpty = true
    · rw [analyzeSQL_empty c o now hq] at hi
      dsimp only at hi
      split at hi
      · simp only [List.mem_singleton] at hi
        subst hi
        exact Or.inl rfl
      · simp at hi
    · rw [analyzeSQL_nonempty c o now hq] at hi ⊢
      dsimp only at hi ⊢
      rw [summarize_statementCount]
      have hp : i ∈ mysqlPreIssues c :=
        (List.mem_filter.mp (mem_sortIssues.mp hi)).1
      rcases mem_mysqlPreIssues hp with h | h | h
      · exact Or.inl h
      · exact Or.inr (Or.inl h)
      · exact Or.inr (Or.inr h)
  | postgresql =>
    rw [analyzeByEngine_postgresql] at hi ⊢
    by_cases hq : (goTrimSpace c).isEmpty = true
    · rw [analyzePG_empty c o now hq] at hi
      have h2 := filterDR_issues_mem hi
      dsimp only at h2
      simp only [List.mem_singleton] at h2
      subst h2
      exact Or.inl rfl
    · rw [analyzePG_nonempty c o now hq] at hi ⊢
      dsimp only at hi ⊢
      rw [summarize_statementCount]
      have h2 := filterDR_issues_mem hi
      dsimp only at h2
      have hp : i ∈ pgPreIssues c := mem_sortIssues.mp h2
      rcases mem_pgPreIssues hp with h | h | h
      · exact Or.inl h
      · exact Or.inr (Or.inl h)
      · exact Or.inr (Or.inr h)
  | mongodb =>
    rw [analyzeByEngine_mongodb] at hi ⊢
    by_cases hq : (goTrimSpace c).isEmpty = true
    · rw [analyzeMongo_empty c o now hq] at hi
      have h2 := filterDR_issues_mem hi
      dsimp only at h2
      simp only [List.mem_singleton] at h2
      subst h2
      exact Or.inl rfl
    · rw [analyzeMongo_nonempty c o now hq] at hi ⊢
      dsimp only at hi ⊢
      rw [summarize_statementCount]
      have h2 := filterDR_issues_mem hi
      dsimp only at h2
      have hp : i ∈ mongoPreIssues c := mem_sortIssues.mp h2
      rcases mem_mongoPreIssues hp with h | h
      · exact Or.inl h
      · exact Or.inr (Or.inl h)

/-- Witness for the amended C3 at the empty MySQL script, whose single issue is
the script-level `empty_input` finding. -/
theorem claim_C3_amended_witness :
    sqlEmptyInputIssue ∈ (analyzeByEngine .mysql [] ⟨none⟩ []).issues ∧
      (sqlEmptyInputIssue.statementIndex = 0 ∨
        (1 ≤ sqlEmptyInputIssue.statementIndex ∧
          sqlEmptyInputIssue.statementIndex ≤
            (analyzeByEngine .mysql [] ⟨none⟩ []).summary.statementCount) ∨
        ((sqlEmptyInputIssue.rule = str "missing_statement_terminator" ∨
            sqlEmptyInputIssue.rule = str "fullwidth_statement_terminator") ∧
          1 ≤ sqlEmptyInputIssue.statementIndex ∧
          sqlEmptyInputIssue.statementIndex ≤
            (splitSQLByLineStartHeuristicDetailed []).length)) :=
  ⟨by decide, claim_C3_amended .mysql [] ⟨none⟩ [] sqlEmptyInputIssue (by decide)⟩

/-- C4: for every engine, analyzing a whitespace-only script returns
`summary.statementCount = 0` and exactly one issue, with rule `empty_input` and
severity error; and since `enforceAlwaysEnabledRules` removes `empty_input`
from any requested disabled set before evaluation, the issue cannot be
suppressed even when the caller requested `empty_input` disabled. -/
theorem claim_C4 (e : DBEngine) (c : Str) (d : List Str) (now : Str)
    (hq : (goTrimSpace c).isEmpty = true) :
    ruleEnabledB ⟨some (enforceAlwaysEnabledRules d).1⟩ (str "empty_input") = true ∧
    (analyzeByEngine e c ⟨some (enforceAlwaysEnabledRules d).1⟩ now).summary.statementCount
        = 0 ∧
    ∃ i, (analyzeByEngine e c ⟨some (enforceAlwaysEnabledRules d).1⟩ now).issues = [i] ∧
      i.rule = str "empty_input" ∧ i.level = IssueLevel.error := by
  have hen : ruleEnabledB ⟨some (enforceAlwaysEnabledRules d).1⟩ (str "empty_input") = true := by
    have h1 := enforce_no_always (d := d)
      (show str "empty_input" ∈ alwaysEnabledRules by decide)
    simp [ruleEnabledB, h1]
  refine ⟨hen, ?_⟩
  cases e with
  | mysql =>
    rw [analyzeByEngine_mysql, analyzeSQL_empty c _ now hq]
    refine ⟨rfl, sqlEmptyInputIssue, ?_, by decide, by decide⟩
    dsimp only
    rw [if_pos hen]
  | postgresql =>
    rw [analyzeByEngine_postgresql, analyzePG_empty c _ now hq]
    refine ⟨?_, sqlEmptyInputIssue, ?_, by decide, by decide⟩
    · rw [filterDR_summary]
      rfl
    · exact filterDR_single rfl hen
  | mongodb =>
    rw [analyzeByEngine_mongodb, analyzeMongo_empty c _ now hq]
    refine ⟨?_, mongoEmptyInputIssue, ?_, by decide, by decide⟩
    · rw [filterDR_summary]
      rfl
    · exact filterDR_single rfl hen

/-- Witness for C4 on PostgreSQL with the whitespace script `"  "` and the
disabled-rule request `[empty_input]`. -/
theorem claim_C4_witness :
    (goTrimSpace (str "  ")).isEmpty = true ∧
    (ruleEnabledB ⟨some (enforceAlwaysEnabledRules [str "empty_input"]).1⟩
        (str "empty_input") = true ∧
      (analyzeByEngine .postgresql (str "  ")
          ⟨some (enforceAlwaysEnabledRules [str "empty_input"]).1⟩ []).summary.statementCount
          = 0 ∧
      ∃ i, (analyzeByEngine .postgresql (str "  ")
          ⟨some (enforceAlwaysEnabledRules [str "empty_input"]).1⟩ []).issues = [i] ∧
        i.rule = str "empty_input" ∧ i.level = IssueLevel.error) :=
  ⟨by decide, claim_C4 .postgresql (str "  ") [str "empty_input"] [] (by decide)⟩

/-- C5: terminator mutual exclusion.  For the SQL engines (`r` is the
`containsRoutine` flag: the routine-regex result for MySQL, `false` for
PostgreSQL), an index reported in the missing-terminator item list (which is
computed by `excludeMissingTerminatorStatements`) never equals an index in the
full-width-terminator item list; for MongoDB, an index in the unterminated-
operation list never equals an index in the full-width-terminator operation
list, because a full-width-terminated operation is always terminated. -/
theorem claim_C5 (c : Str) (r : Bool) (x y u v : MissingTS)
    (hx : x ∈ excludeMissingTerminatorStatements
      (detectMissingTerminatorStatements c (splitSQLStatements c) r)
      (detectFullwidthTerminatorStatements c r))
    (hy : y ∈ detectFullwidthTerminatorStatements c r)
    (hu : u ∈ mongoItems (fun op => !op.terminated) 0 (parseMongoOperations c))
    (hv : v ∈ mongoItems (fun op => op.fullwidthTerminator) 0 (parseMongoOperations c)) :
    x.index ≠ y.index ∧ u.index ≠ v.index := by
  refine ⟨mem_excludeMissing_disjoint hx hy, ?_⟩
  obtain ⟨j1, hj1, hi1, hp1⟩ := mem_mongoItems hu
  obtain ⟨j2, hj2, hi2, hp2⟩ := mem_mongoItems hv
  intro hEq
  have hj : j1 = j2 := by omega
  subst hj
  have hmem : (parseMongoOperations c).get ⟨j1, hj1⟩ ∈ parseMongoOperations c :=
    (parseMongoOperations c).get_mem j1 hj1
  have hterm := parseMongo_fw_terminated _ hmem hp2
  simp only [Bool.not_eq_true'] at hp1
  rw [hp1] at hterm
  cases hterm

/-- Witness for C5 on the script
`UPDATE t SET a=1 WHERE id=1\nDELETE FROM t WHERE id=2；`, whose missing-
terminator lists report index 1 and whose full-width lists report index 2, for
both the SQL view and the Mongo view of the script. -/
theorem claim_C5_witness :
    ((⟨1, str "UPDATE t SET a=1 WHERE id=1"⟩ : MissingTS) ∈
        excludeMissingTerminatorStatements
          (detectMissingTerminatorStatements
            (str "UPDATE t SET a=1 WHERE id=1\nDELETE FROM t WHERE id=2；")
            (splitSQLStatements
              (str "UPDATE t SET a=1 WHERE id=1\nDELETE FROM t WHERE id=2；")) false)
          (detectFullwidthTerminatorStatements
            (str "UPDATE t SET a=1 WHERE id=1\nDELETE FROM t WHERE id=2；") false)) ∧
    ((⟨2, str "DELETE FROM t WHERE id=2；"⟩ : MissingTS) ∈
        detectFullwidthTerminatorStatements
          (str "UPDATE t SET a=1 WHERE id=1\nDELETE FROM t WHERE id=2；") false) ∧
    ((⟨1, str "UPDATE t SET a=1 WHERE id=1"⟩ : MissingTS) ∈
        mongoItems (fun op => !op.terminated) 0
          (parseMongoOperations
            (str "UPDATE t SET a=1 WHERE id=1\nDELETE FROM t WHERE id=2；"))) ∧
    ((⟨2, str "DELETE FROM t WHERE id=2"⟩ : MissingTS) ∈
        mongoItems (fun op => op.fullwidthTerminator) 0
          (parseMongoOperations
            (str "UPDATE t SET a=1 WHERE id=1\nDELETE FROM t WHERE id=2；"))) ∧
    ((1 : Nat) ≠ 2 ∧ (1 : Nat) ≠ 2) :=
  ⟨by decide, by decide, by decide, by decide,
    claim_C5 (str "UPDATE t SET a=1 WHERE id=1\nDELETE FROM t WHERE id=2；") false
      ⟨1, str "UPDATE t SET a=1 WHERE id=1"⟩ ⟨2, str "DELETE FROM t WHERE id=2；"⟩
      ⟨1, str "UPDATE t SET a=1 WHERE id=1"⟩ ⟨2, str "DELETE FROM t WHERE id=2"⟩
      (by decide) (by decide) (by decide) (by decide)⟩

/-- C6 counterexample: the PostgreSQL analyzer passes `containsRoutine = false`
to the terminator detectors, so on the routine script
`CREATE PROCEDURE p() BEGIN END` — which the routine regex does match — the
returned report still contains a `missing_statement_terminator` issue,
refuting the claimed routine exemption for PostgreSQL. -/
theorem claim_C6_counterexample :
    reRoutineDefinition (str "CREATE PROCEDURE p() BEGIN END") = true ∧
      ((analyzeByEngine .postgresql (str "CREATE PROCEDURE p() BEGIN END")
          ⟨none⟩ []).issues.any
        (fun i => i.rule == str "missing_statement_terminator")) = true := by
  exact ⟨by decide, by decide⟩

/-- C6 amended: the MySQL analyzer emits no `missing_statement_terminator`
issue when the comment/string-stripped script contains the substring
`DELIMITER ` (the check the code actually performs) or the script matches the
routine regex; the PostgreSQL analyzer is exempted by the `DELIMITER `
substring only — its routine matches do not suppress the issue. -/
theorem claim_C6_amended (c : Str) (o : AnalyzeOptions) (now : Str)
    (hcond : chContains (goToUpper (goTrimSpace (stripCommentsAndStrings c)))
        (str "DELIMITER ") = true ∨ reRoutineDefinition c = true) :
    (∀ i ∈ (analyzeByEngine .mysql c o now).issues,
        i.rule ≠ str "missing_statement_terminator") ∧
    (chContains (goToUpper (goTrimSpace (stripCommentsAndStrings c)))
        (str "DELIMITER ") = true →
      ∀ i ∈ (analyzeByEngine .postgresql c o now).issues,
        i.rule ≠ str "missing_statement_terminator") := by
  constructor
  · intro i hi
    rw [analyzeByEngine_mysql] at hi
    by_cases hq : (goTrimSpace c).isEmpty = true
    · rw [analyzeSQL_empty c o now hq] at hi
      dsimp only at hi
      split at hi
      · simp only [List.mem_singleton] at hi
        subst hi
        decide
      · simp at hi
    · rw [analyzeSQL_nonempty c o now hq] at hi
      dsimp only at hi
      have hp : i ∈ mysqlPreIssues c := (List.mem_filter.mp (mem_sortIssues.mp hi)).1
      exact mysqlPre_no_missing hcond i hp
  · intro hdel i hi
    rw [analyzeByEngine_postgresql] at hi
    by_cases hq : (goTrimSpace c).isEmpty = true
    · rw [analyzePG_empty c o now hq] at hi
      have h2 := filterDR_issues_mem hi
      dsimp only at h2
      simp only [List.mem_singleton] at h2
      subst h2
      decide
    · rw [analyzePG_nonempty c o now hq] at hi
      dsimp only at hi
      have h2 := filterDR_issues_mem hi
      dsimp only at h2
      exact pgPre_no_missing hdel i (mem_sortIssues.mp h2)

/-- Witness for the amended C6 on the directive-driven script
`DELIMITER $$\nSELECT 1$$`. -/
theorem claim_C6_amended_witness :
    (chContains (goToUpper (goTrimSpace (stripCommentsAndStrings
          (str "DELIMITER $$\nSELECT 1$$")))) (str "DELIMITER ") = true ∨
      reRoutineDefinition (str "DELIMITER $$\nSELECT 1$$") = true) ∧
    ((∀ i ∈ (analyzeByEngine .mysql (str "DELIMITER $$\nSELECT 1$$")
          ⟨none⟩ []).issues,
        i.rule ≠ str "missing_statement_terminator") ∧
      (chContains (goToUpper (goTrimSpace (stripCommentsAndStrings
            (str "DELIMITER $$\nSELECT 1$$")))) (str "DELIMITER ") = true →
        ∀ i ∈ (analyzeByEngine .postgresql (str "DELIMITER $$\nSELECT 1$$")
            ⟨none⟩ []).issues,
          i.rule ≠ str "missing_statement_terminator")) :=
  ⟨Or.inl (by decide),
    claim_C6_amended (str "DELIMITER $$\nSELECT 1$$") ⟨none⟩ [] (Or.inl (by decide))⟩

/-- C7: one step of the statement-splitter scanner on an unquoted,
uncommented full-width semicolon U+FF1B.  When the active delimiter is the
default `;`, the step flushes the builder exactly as `;` would (the fragment
before it is emitted and the builder restarts empty); when a custom delimiter
is active that is not `;` and does not contain U+FF1B, the full-width
semicolon is an ordinary character appended to the builder, ending no
statement. -/
theorem claim_C7 (fuel : Nat) (st : SplitState) (esc : Bool) (cs : Str)
    (hS : st.inS = false) (hD : st.inD = false) (hB : st.inB = false)
    (hBC : st.inBC = false) :
    (st.delim = [';'] →
      scanLineCharsF (fuel + 1) st false esc ('；' :: cs) =
        scanLineCharsF fuel
          { st with items := flushItems st.items st.builder, builder := [] }
          false (escStep esc '；') cs) ∧
    (st.delim ≠ [';'] → '；' ∉ st.delim → 0 < st.delim.length →
      scanLineCharsF (fuel + 1) st false esc ('；' :: cs) =
        scanLineCharsF fuel { st with builder := st.builder ++ ['；'] }
          false (escStep esc '；') cs) := by
  obtain ⟨items, builder, delim, inS, inD, inB, inBC⟩ := st
  dsimp only at hS hD hB hBC
  subst hS; subst hD; subst hB; subst hBC
  constructor
  · intro hd
    dsimp only at hd
    subst hd
    rfl
  · intro hne hmem hlen
    dsimp only at hne hmem hlen
    have hpre : delim.isPrefixOf ('；' :: cs) = false := by
      cases delim with
      | nil => simp at hlen
      | cons d ds =>
        simp only [List.mem_cons, not_or] at hmem
        have hd : (d == '；') = false := by
          rw [beq_eq_false_iff_ne]
          exact fun h => hmem.1 h.symm
        simp [List.isPrefixOf, hd]
    have hne' : (delim == [';']) = false := by
      rw [beq_eq_false_iff_ne]
      exact hne
    simp only [scanLineCharsF]
    simp +decide [hpre, hne']

/-- Witness for C7: one scanner step on `；` with the default delimiter `;`
and the pending builder `SELECT 1`. -/
theorem claim_C7_witness :
    (⟨[], str "SELECT 1", [';'], false, false, false, false⟩ : SplitState).inS = false ∧
    (((⟨[], str "SELECT 1", [';'], false, false, false, false⟩ : SplitState).delim = [';'] →
        scanLineCharsF 3 ⟨[], str "SELECT 1", [';'], false, false, false, false⟩ false false
            ['；'] =
          scanLineCharsF 2
            { (⟨[], str "SELECT 1", [';'], false, false, false, false⟩ : SplitState) with
                items := flushItems [] (str "SELECT 1"), builder := [] }
            false (escStep false '；') []) ∧
      ((⟨[], str "SELECT 1", [';'], false, false, false, false⟩ : SplitState).delim ≠ [';'] →
        '；' ∉ (⟨[], str "SELECT 1", [';'], false, false, false, false⟩ : SplitState).delim →
        0 < (⟨[], str "SELECT 1", [';'], false, false, false,
              false⟩ : SplitState).delim.length →
        scanLineCharsF 3 ⟨[], str "SELECT 1", [';'], false, false, false, false⟩ false false
            ['；'] =
          scanLineCharsF 2
            { (⟨[], str "SELECT 1", [';'], false, false, false, false⟩ : SplitState) with
                builder := str "SELECT 1" ++ ['；'] }
            false (escStep false '；') [])) :=
  ⟨rfl,
    claim_C7 2 ⟨[], str "SELECT 1", [';'], false, false, false, false⟩ false [] rfl rfl rfl rfl⟩

/-- C8: for every engine, script and disabled-rule set, the issue list of the
returned report is sorted by ascending statement index and, within one index,
by descending severity; and the sort is stable: two issues with equal index
and equal severity that survive filtering appear in the report in the order in
which the evaluator generated them (`sortInput` is the list handed to the
stable sort, in generation order). -/
theorem claim_C8 (e : DBEngine) (c : Str) (o : AnalyzeOptions) (now : Str) :
    ((analyzeByEngine e c o now).issues.Pairwise
      (fun x y => x.statementIndex < y.statementIndex ∨
        (x.statementIndex = y.statementIndex ∧
          severityWeight y.level ≤ severityWeight x.level))) ∧
    (∀ a b : Issue, a.statementIndex = b.statementIndex → a.level = b.level →
      ruleEnabledB o a.rule = true → ruleEnabledB o b.rule = true →
      List.Sublist [a, b] (sortInput e c o) → (goTrimSpace c).isEmpty = false →
      List.Sublist [a, b] (analyzeByEngine e c o now).issues) := by
  have himp : ∀ {x y : Issue}, leIssueB x y = true →
      (x.statementIndex < y.statementIndex ∨
        (x.statementIndex = y.statementIndex ∧
          severityWeight y.level ≤ severityWeight x.level)) :=
    fun h => (leIssueB_iff _ _).mp h
  constructor
  · cases e with
    | mysql =>
      rw [analyzeByEngine_mysql]
      by_cases hq : (goTrimSpace c).isEmpty = true
      · rw [analyzeSQL_empty c o now hq]
        dsimp only
        split <;> simp
      · rw [analyzeSQL_nonempty c o now hq]
        dsimp only
        exact (sortIssues_sorted _).imp himp
    | postgresql =>
      rw [analyzeByEngine_postgresql]
      by_cases hq : (goTrimSpace c).isEmpty = true
      · rw [analyzePG_empty c o now hq]
        exact (filterDR_sorted (by simp)).imp himp
      · rw [analyzePG_nonempty c o now hq]
        dsimp only
        exact (filterDR_sorted (sortIssues_sorted _)).imp himp
    | mongodb =>
      rw [analyzeByEngine_mongodb]
      by_cases hq : (goTrimSpace c).isEmpty = true
      · rw [analyzeMongo_empty c o now hq]
        exact (filterDR_sorted (by simp)).imp himp
      · rw [analyzeMongo_nonempty c o now hq]
        dsimp only
        exact (filterDR_sorted (sortIssues_sorted _)).imp himp
  · intro a b hidx hlvl hena henb hsub hne
    have hq : ¬ (goTrimSpace c).isEmpty = true := by simp [hne]
    cases e with
    | mysql =>
      simp only [sortInput] at hsub
      rw [analyzeByEngine_mysql, analyzeSQL_nonempty c o now hq]
      dsimp only
      exact sortIssues_stable hidx hlvl hsub
    | postgresql =>
      simp only [sortInput] at hsub
      rw [analyzeByEngine_postgresql, analyzePG_nonempty c o now hq]
      dsimp only
      exact filterDR_pair hena henb (sortIssues_stable hidx hlvl hsub)
    | mongodb =>
      simp only [sortInput] at hsub
      rw [analyzeByEngine_mongodb, analyzeMongo_nonempty c o now hq]
      dsimp only
      exact filterDR_pair hena henb (sortIssues_stable hidx hlvl hsub)

/-- Witness for C8 on `SELECT * FROM t WHERE name LIKE '%x';`: the report is
sorted, and the two warning issues of statement 1 (`select_star`, then
`like_leading_wildcard`) keep their generation order even though an info issue
is generated between them. -/
theorem claim_C8_witness :
    ((analyzeByEngine .mysql (str "SELECT * FROM t WHERE name LIKE '%x';")
        ⟨none⟩ []).issues.Pairwise
      (fun x y => x.statementIndex < y.statementIndex ∨
        (x.statementIndex = y.statementIndex ∧
          severityWeight y.level ≤ severityWeight x.level))) ∧
    List.Sublist
      [⟨1, .warning, str "select_star", str "SELECT * 可能带来性能和兼容风险",
          str "建议显式列出字段，减少 I/O 并降低结构变更影响",
          str "SELECT * FROM t WHERE name LIKE '%x'"⟩,
        ⟨1, .warning, str "like_leading_wildcard", str "LIKE 前导通配符可能导致索引失效",
          str "可考虑全文检索、倒排索引或改写匹配策略",
          str "SELECT * FROM t WHERE name LIKE '%x'"⟩]
      (analyzeByEngine .mysql (str "SELECT * FROM t WHERE name LIKE '%x';")
        ⟨none⟩ []).issues :=
  ⟨(claim_C8 .mysql (str "SELECT * FROM t WHERE name LIKE '%x';") ⟨none⟩ []).1,
    (claim_C8 .mysql (str "SELECT * FROM t WHERE name LIKE '%x';") ⟨none⟩ []).2
      ⟨1, .warning, str "select_star", str "SELECT * 可能带来性能和兼容风险",
        str "建议显式列出字段，减少 I/O 并降低结构变更影响",
        str "SELECT * FROM t WHERE name LIKE '%x'"⟩
      ⟨1, .warning, str "like_leading_wildcard", str "LIKE 前导通配符可能导致索引失效",
        str "可考虑全文检索、倒排索引或改写匹配策略",
        str "SELECT * FROM t WHERE name LIKE '%x'"⟩
      rfl rfl rfl rfl (by decide) (by decide)⟩

/-- C9: determinism.  Two calls with identical engine, script and options
return identical `summary`, `issues` and `advice`; the timestamp argument
(`now`, standing for `time.Now()`) influences only the `checkedAt` field. -/
theorem claim_C9 (e : DBEngine) (c : Str) (o : AnalyzeOptions) (now1 now2 : Str) :
    (analyzeByEngine e c o now1).summary = (analyzeByEngine e c o now2).summary ∧
    (analyzeByEngine e c o now1).issues = (analyzeByEngine e c o now2).issues ∧
    (analyzeByEngine e c o now1).advice = (analyzeByEngine e c o now2).advice := by
  cases e with
  | mysql =>
    rw [analyzeByEngine_mysql c o now1, analyzeByEngine_mysql c o now2]
    by_cases hq : (goTrimSpace c).isEmpty = true
    · rw [analyzeSQL_empty c o now1 hq, analyzeSQL_empty c o now2 hq]
      exact ⟨rfl, rfl, rfl⟩
    · rw [analyzeSQL_nonempty c o now1 hq, analyzeSQL_nonempty c o now2 hq]
      exact ⟨rfl, rfl, rfl⟩
  | postgresql =>
    rw [analyzeByEngine_postgresql c o now1, analyzeByEngine_postgresql c o now2]
    by_cases hq : (goTrimSpace c).isEmpty = true
    · rw [analyzePG_empty c o now1 hq, analyzePG_empty c o now2 hq]
      refine ⟨?_, filterDR_issues_congr rfl, ?_⟩
      · rw [filterDR_summary, filterDR_summary]
      · rw [filterDR_advice, filterDR_advice]
    · rw [analyzePG_nonempty c o now1 hq, analyzePG_nonempty c o now2 hq]
      dsimp only
      exact ⟨congrArg (summarizeIssues _) (filterDR_issues_congr rfl),
        filterDR_issues_congr rfl,
        congrArg buildAdvice (congrArg (summarizeIssues _) (filterDR_issues_congr rfl))⟩
  | mongodb =>
    rw [analyzeByEngine_mongodb c o now1, analyzeByEngine_mongodb c o now2]
    by_cases hq : (goTrimSpace c).isEmpty = true
    · rw [analyzeMongo_empty c o now1 hq, analyzeMongo_empty c o now2 hq]
      refine ⟨?_, filterDR_issues_congr rfl, ?_⟩
      · rw [filterDR_summary, filterDR_summary]
      · rw [filterDR_advice, filterDR_advice]
    · rw [analyzeMongo_nonempty c o now1 hq, analyzeMongo_nonempty c o now2 hq]
      dsimp only
      exact ⟨congrArg (summarizeIssues _) (filterDR_issues_congr rfl),
        filterDR_issues_congr rfl,
        congrArg buildAdvice (congrArg (summarizeIssues _) (filterDR_issues_congr rfl))⟩

/-- C10 (implicit frame property): the analyzers never mutate the
caller-supplied disabled-rule map.  In the state-threading model, which makes
every map read return the map contents it leaves behind, `analyzeByEngineSt`
returns exactly the pure analysis result together with the unchanged options. -/
theorem claim_C10 (e : DBEngine) (c : Str) (o : AnalyzeOptions) (now : Str) :
    analyzeByEngineSt e c o now = (analyzeByEngine e c o now, o) := by
  cases e with
  | mysql => exact analyzeSQLWithOptionsSt_eq c o now
  | postgresql => exact analyzePostgresWithOptionsSt_eq c o now
  | mongodb => exact analyzeMongoWithOptionsSt_eq c o now
